import Mathlib

/-!
Verification of the pirate-game vessel code: a shallow embedding of the
angle arithmetic, sail/wind physics, cannon turret control, deck
walkability and wind-cycle state of the repository, with theorems about
the claimed properties.

All angles and positions are modelled as real numbers; the JavaScript
`while`-loop angle normalizations and the `%` operator are embedded by
their closed forms, proved to coincide with the loop semantics on the
relevant domains.
-/

namespace PirateGame

open Real

/-! ## Angle helpers

Closed forms of the JS angle-normalization `while` loops and of the JS
`%` (truncated remainder) operator. -/
/-- Integer truncation toward zero, as used by the JS `%` operator. -/
noncomputable def truncInt (x : ℝ) : ℤ := if 0 ≤ x then ⌊x⌋ else ⌈x⌉

/-- JS remainder `a % b`: `a - b * trunc (a / b)` (sign follows the dividend). -/
noncomputable def jsRem (a b : ℝ) : ℝ := a - b * truncInt (a / b)

/-- Closed form of `while (x < 0) x += 2π; while (x >= 2π) x -= 2π`:
reduction into `[0, 2π)`. -/
noncomputable def norm2pi (x : ℝ) : ℝ := x - 2 * π * ⌊x / (2 * π)⌋

/-- Closed form of `while (x > π) x -= 2π; while (x < -π) x += 2π`:
reduction into `[-π, π]` (inputs above `π` land in `(-π, π]`, inputs
below `-π` land in `[-π, π)`, inputs already in `[-π, π]` are unchanged,
exactly as the two loops behave). -/
noncomputable def normPi (x : ℝ) : ℝ :=
  if π < x then x - 2 * π * ⌈(x - π) / (2 * π)⌉
  else if x < -π then x + 2 * π * ⌈(-π - x) / (2 * π)⌉
  else x

/-! ## Cannon module

Embedding of `CannonModule` (CannonModule.ts): turret rotation state,
reload state, and the `update` / `fire` methods.  The JS `Date.now()`
calls are modelled by an explicit `now` parameter; the game reference
and its `addCannonball` member are modelled by the two Booleans
`hasGame` and `gameHasAddCannonball`. -/
/-- State of a `CannonModule` instance (fields of the class). -/
structure Cannon where
  positionX : ℝ
  positionY : ℝ
  rotation : ℝ
  turretAngle : ℝ
  targetTurretAngle : ℝ
  rotationSpeed : ℝ
  reloadTime : ℝ
  lastFiredTime : ℝ
  isLoaded : Bool
  hasGame : Bool
  gameHasAddCannonball : Bool

namespace CannonModule

open Classical in
/-- First half of `CannonModule.update`: set `isLoaded` back to `true`
once more than `reloadTime` has elapsed since `lastFiredTime`. -/
noncomputable def reload (now : ℝ) (c : Cannon) : Cannon :=
  if c.isLoaded = false ∧ c.reloadTime < now - c.lastFiredTime
    then { c with isLoaded := true } else c

open Classical in
/-- Second half of `CannonModule.update`: if the turret is not at its
target, rotate it by `rotationSpeed` in the direction of the normalized
angle difference, normalize the turret angle into `[0, 2π)`, and snap to
the target when the post-move difference is within `rotationSpeed` in
absolute value or its sign flipped. -/
noncomputable def rotateTurret (c : Cannon) : Cannon :=
  if c.turretAngle = c.targetTurretAngle then c
  else
    let angleDiff := normPi (c.targetTurretAngle - c.turretAngle)
    let direction : ℝ := if 0 < angleDiff then 1 else -1
    let moved := norm2pi (c.turretAngle + c.rotationSpeed * direction)
    let newAngleDiff := normPi (c.targetTurretAngle - moved)
    if |newAngleDiff| < c.rotationSpeed ∨ ¬((0 < angleDiff) ↔ (0 < newAngleDiff)) then
      { c with turretAngle := c.targetTurretAngle }
    else
      { c with turretAngle := moved }

/-- `CannonModule.update`: the reload check followed by the gradual
turret rotation, exactly the two sequential parts of the method body. -/
noncomputable def update (now : ℝ) (c : Cannon) : Cannon :=
  rotateTurret (reload now c)

/-- Result of `CannonModule.fire`: the returned Boolean, the cannon state
after the call, the arguments passed to `game.addCannonball` (if any),
and whether a `console.error` diagnostic was emitted. -/
structure FireOutcome where
  fired : Bool
  cannon : Cannon
  spawn : Option (ℝ × ℝ × ℝ × ℝ)
  diagnostic : Bool

/-- `CannonModule.fire(worldX, worldY, shipAngle, shipVelocity?)`:
returns `false` immediately when not loaded; otherwise clears the loaded
flag and records the firing time, then checks the game reference and its
`addCannonball` member (emitting a diagnostic and returning `false` when
missing), and finally spawns the cannonball at barrel length 20 with
base speed 10 plus half the ship speed. -/
noncomputable def fire (c : Cannon) (now worldX worldY shipAngle : ℝ)
    (shipVelocity : Option (ℝ × ℝ)) : FireOutcome :=
  if c.isLoaded = false then ⟨false, c, none, false⟩
  else
    let firingAngle := shipAngle + c.turretAngle + c.rotation + π
    let c1 : Cannon := { c with isLoaded := false, lastFiredTime := now }
    let spawnX := worldX - Real.sin firingAngle * 20
    let spawnY := worldY + Real.cos firingAngle * 20
    if c.hasGame = false then ⟨false, c1, none, true⟩
    else if c.gameHasAddCannonball = false then ⟨false, c1, none, true⟩
    else
      let finalSpeed := 10 + (match shipVelocity with
        | some v => Real.sqrt (v.1 ^ 2 + v.2 ^ 2) * 0.5
        | none => 0)
      ⟨true, c1, some (spawnX, spawnY, firingAngle, finalSpeed), false⟩

end CannonModule

/-- The normalized signed angular difference from the turret to its target. -/
noncomputable def turretDiff (c : Cannon) : ℝ :=
  normPi (c.targetTurretAngle - c.turretAngle)

/-- The cannon of the C2 scenario: turret at -40 degrees, target at
+40 degrees, the default rotation speed 0.005 rad/frame, default reload
time, loaded. -/
noncomputable def scenarioCannon : Cannon :=
  { positionX := 0, positionY := 0, rotation := 0
    turretAngle := -(2 * π / 9), targetTurretAngle := 2 * π / 9
    rotationSpeed := 0.005, reloadTime := 2000, lastFiredTime := 0
    isLoaded := true, hasGame := true, gameHasAddCannonball := true }

/-- An unloaded cannon (for the C7 witness). -/
noncomputable def unloadedCannon : Cannon :=
  { positionX := 10, positionY := -75, rotation := 0
    turretAngle := 0.3, targetTurretAngle := 0.5
    rotationSpeed := 0.005, reloadTime := 2000, lastFiredTime := 100
    isLoaded := false, hasGame := true, gameHasAddCannonball := true }

/-- A loaded cannon whose game reference was never set (for C8). -/
noncomputable def orphanCannon : Cannon :=
  { positionX := 65, positionY := 75, rotation := 0
    turretAngle := 0.1, targetTurretAngle := 0.1
    rotationSpeed := 0.005, reloadTime := 2000, lastFiredTime := 0
    isLoaded := true, hasGame := false, gameHasAddCannonball := false }

/-! ## Sail modules and ship sail controls

Embedding of `SailModule` (SailModule.ts) and the sail-related `Ship`
methods of WalkableDebug.js. -/
/-- State of a sail module: trim angle in degrees and openness percent. -/
structure SailState where
  angle : ℝ
  openness : ℝ

/-- The efficiency-versus-angle-difference profile shared by
`SailModule.calculateEfficiency` and both `Ship.calculateSailEfficiency`
versions: linear interpolation from 1.0 at 0 degrees down to 0.35 at 90
degrees, 0.35 beyond 90 degrees, followed by the clamp
`Math.min(1, Math.max(0.35, _))`. -/
noncomputable def effOfDiff (d : ℝ) : ℝ :=
  min 1 (max 0.35 (if d ≤ 90 then 1 - 0.65 * d / 90 else 0.35))

/-- The wind-versus-sail-normal angle difference in degrees: arccos of
the clamped dot product between the wind direction vector and the sail
normal vector (ship angle + sail trim + 90 degrees). -/
noncomputable def windSailAngleDiffDeg (windDirection shipAngle sailAngleDeg : ℝ) : ℝ :=
  let sailNormalAngle := shipAngle + sailAngleDeg * π / 180 + π / 2
  let dot := Real.cos windDirection * Real.cos sailNormalAngle +
      Real.sin windDirection * Real.sin sailNormalAngle
  Real.arccos (min 1 (max (-1) dot)) * 180 / π

namespace SailModule

/-- `SailModule.calculateEfficiency(windDirection, shipAngle)`: the
clamped profile value at the wind-sail angle difference, scaled by the
sail openness. -/
noncomputable def calculateEfficiency (s : SailState) (windDirection shipAngle : ℝ) : ℝ :=
  effOfDiff (windSailAngleDiffDeg windDirection shipAngle s.angle) * (s.openness / 100)

/-- `SailModule.setOpenness(percent)`: clamp into [0, 100] on write. -/
noncomputable def setOpenness (p : ℝ) (m : SailState) : SailState :=
  { m with openness := max 0 (min 100 p) }

/-- `SailModule.open(increment)`: `setOpenness(openness + increment)`. -/
noncomputable def openBy (inc : ℝ) (m : SailState) : SailState :=
  setOpenness (m.openness + inc) m

/-- `SailModule.close(increment)`: `setOpenness(openness - increment)`. -/
noncomputable def closeBy (inc : ℝ) (m : SailState) : SailState :=
  setOpenness (m.openness - inc) m

/-- `SailModule.rotate(degrees)`: clamp the new angle into [-75, 75]. -/
noncomputable def rotate (deg : ℝ) (m : SailState) : SailState :=
  { m with angle := max (-75) (min 75 (m.angle + deg)) }

open Classical in
/-- `SailModule.centerAngle(increment)`: move the trim angle toward 0 by
the increment, stopping at 0. -/
noncomputable def centerAngle (inc : ℝ) (m : SailState) : SailState :=
  if 0 < m.angle then { m with angle := max 0 (m.angle - inc) }
  else if m.angle < 0 then { m with angle := min 0 (m.angle + inc) }
  else m

end SailModule

/-- The three steering/trim directions accepted by the ship controls. -/
inductive SailDir where
  | left
  | right
  | center

/-- The mutable control state of the ship relevant to the clamping
invariants: rudder angle and the sail modules. -/
structure ShipCtl where
  rudderAngle : ℝ
  sails : List SailState

/-- Replace the element at an index by the image under `f` (used to
model calling a setter on one sail module). -/
def modifyAt {α : Type} (f : α → α) : ℕ → List α → List α
  | _, [] => []
  | 0, a :: as => f a :: as
  | n + 1, a :: as => a :: modifyAt f n as

/-- The public mutating sail/rudder operations of the ship and of the
sail modules, with their arbitrary caller-supplied arguments.
`applyRudder` carries the physics-body velocity from which the rudder
change rate is computed; `centerSail` models `SailModule.centerAngle`
with the increment used at every call site of the repository (1.25). -/
inductive ShipOp where
  | applyRudder (dir : SailDir) (vx vy : ℝ)
  | rotateSails (dir : SailDir)
  | rotateSailsTypedOp (dir : SailDir)
  | adjustSails (percent : ℝ)
  | openSails
  | closeSails
  | setOpenness (i : ℕ) (percent : ℝ)
  | openSail (i : ℕ) (inc : ℝ)
  | closeSail (i : ℕ) (inc : ℝ)
  | rotateSail (i : ℕ) (degrees : ℝ)
  | centerSail (i : ℕ)

open Classical in
/-- `Ship.applyRudder` (rudder-angle part): the change rate is
`0.5 * (0.5 + min 0.7 (speed / 3))` for the current speed, and the new
rudder angle is clamped into [-30, 30] (or moved toward 0 for
`center`). -/
noncomputable def applyRudderAngle (dir : SailDir) (vx vy rudder : ℝ) : ℝ :=
  let currentSpeed := Real.sqrt (vx ^ 2 + vy ^ 2)
  let rudderChangeRate := 0.5 * (0.5 + min 0.7 (currentSpeed / 3))
  match dir with
  | .left => max (-30) (rudder - rudderChangeRate)
  | .right => min 30 (rudder + rudderChangeRate)
  | .center =>
    if 0 < rudder then max 0 (rudder - rudderChangeRate)
    else if rudder < 0 then min 0 (rudder + rudderChangeRate)
    else rudder

open Classical in
/-- `Ship.rotateSails` (untyped version): adjust each sail angle by the
rotation rate 1.25 degrees, clamped into [-75, 75] (or toward 0 for
`center`). -/
noncomputable def rotateSailAngle (dir : SailDir) (a : ℝ) : ℝ :=
  match dir with
  | .left => max (-75) (a - 1.25)
  | .right => min 75 (a + 1.25)
  | .center =>
    if 0 < a then max 0 (a - 1.25)
    else if a < 0 then min 0 (a + 1.25)
    else a

/-- The per-sail action of the typed `Ship.rotateSails`, which calls the
`SailModule` methods with the rotation rate 1.25. -/
noncomputable def rotateSailTypedOne (dir : SailDir) (m : SailState) : SailState :=
  match dir with
  | .left => SailModule.rotate (-1.25) m
  | .right => SailModule.rotate 1.25 m
  | .center => SailModule.centerAngle 1.25 m

/-- One public mutating operation applied to the ship control state. -/
noncomputable def shipStep (s : ShipCtl) (op : ShipOp) : ShipCtl :=
  match op with
  | .applyRudder dir vx vy =>
    { s with rudderAngle := applyRudderAngle dir vx vy s.rudderAngle }
  | .rotateSails dir =>
    { s with sails := s.sails.map fun m => { m with angle := rotateSailAngle dir m.angle } }
  | .rotateSailsTypedOp dir =>
    { s with sails := s.sails.map (rotateSailTypedOne dir) }
  | .adjustSails p =>
    { s with sails := s.sails.map fun m => { m with openness := max 0 (min 100 p) } }
  | .openSails =>
    { s with sails := s.sails.map fun m => { m with openness := min 100 (m.openness + 10) } }
  | .closeSails =>
    { s with sails := s.sails.map fun m => { m with openness := max 0 (m.openness - 10) } }
  | .setOpenness i p => { s with sails := modifyAt (SailModule.setOpenness p) i s.sails }
  | .openSail i inc => { s with sails := modifyAt (SailModule.openBy inc) i s.sails }
  | .closeSail i inc => { s with sails := modifyAt (SailModule.closeBy inc) i s.sails }
  | .rotateSail i deg => { s with sails := modifyAt (SailModule.rotate deg) i s.sails }
  | .centerSail i => { s with sails := modifyAt (SailModule.centerAngle 1.25) i s.sails }

/-- The claimed invariant: rudder in [-30, 30], every sail trim angle in
[-75, 75] and every openness in [0, 100]. -/
def shipInv (s : ShipCtl) : Prop :=
  -30 ≤ s.rudderAngle ∧ s.rudderAngle ≤ 30 ∧
  ∀ m ∈ s.sails, -75 ≤ m.angle ∧ m.angle ≤ 75 ∧ 0 ≤ m.openness ∧ m.openness ≤ 100

/-- The initial control state built by the ship constructor: rudder at
0, all sail modules at angle 0, openness 0. -/
def initShip (n : ℕ) : ShipCtl :=
  { rudderAngle := 0, sails := List.replicate n { angle := 0, openness := 0 } }

/-- The per-sail part of the invariant. -/
def sailOK (m : SailState) : Prop :=
  -75 ≤ m.angle ∧ m.angle ≤ 75 ∧ 0 ≤ m.openness ∧ m.openness ≤ 100

/-! ## Wind force application (`Ship.applyWindForce`, both versions) -/
/-- `Math.atan2(y, x)`: the argument of the complex number `x + y i`,
in `(-π, π]`. -/
noncomputable def atan2 (y x : ℝ) : ℝ := Complex.arg ⟨x, y⟩

/-- The wind angle relative to the ship computed by `applyWindForce`. -/
noncomputable def relativeWindAngle (windDirection shipAngle : ℝ) : ℝ :=
  atan2 (Real.sin windDirection * Real.cos shipAngle -
      Real.cos windDirection * Real.sin shipAngle)
    (Real.cos windDirection * Real.cos shipAngle +
      Real.sin windDirection * Real.sin shipAngle)

open Classical in
/-- The hull alignment factor of the untyped `applyWindForce`:
half-circle interpolation on the absolute relative wind angle in
degrees, floored at 0.1. -/
noncomputable def alignmentFactor (windDirection shipAngle : ℝ) : ℝ :=
  let angleDiffDegrees := |relativeWindAngle windDirection shipAngle| * 180 / π
  max 0.1 (if angleDiffDegrees ≤ 90 then 1 - 0.65 * angleDiffDegrees / 90
    else 0.35 * max 0 (1 - (angleDiffDegrees - 90) / 90))

open Classical in
/-- The hull alignment factor of the typed `applyWindForce`: the gentler
interpolation (0.55 penalty, 0.45 outside), floored at 0.15. -/
noncomputable def alignmentFactorTyped (windDirection shipAngle : ℝ) : ℝ :=
  let angleDiffDegrees := |relativeWindAngle windDirection shipAngle| * 180 / π
  max 0.15 (if angleDiffDegrees ≤ 90 then 1 - 0.55 * angleDiffDegrees / 90
    else 0.45 * max 0 (1 - (angleDiffDegrees - 90) / 90))

open Classical in
/-- One open sail's contribution to the ship sail efficiency: the
profile value plus the angle bonus, scaled by openness. -/
noncomputable def sailContribution (windDirection shipAngle : ℝ) (m : SailState) : ℝ :=
  let eff := effOfDiff (windSailAngleDiffDeg windDirection shipAngle m.angle)
  let angleBonus := if 0 < eff then min 0.2 (|m.angle| / 75 * 0.2) else 0
  (eff + angleBonus) * (m.openness / 100)

open Classical in
/-- The `(totalEfficiency, sailCount)` accumulation over the modules
with positive openness, shared by both `calculateSailEfficiency`
versions. -/
noncomputable def shipSailTotals (windDirection shipAngle : ℝ)
    (sails : List SailState) : ℝ × ℕ :=
  sails.foldl (fun acc m =>
    if 0 < m.openness then
      (acc.1 + sailContribution windDirection shipAngle m, acc.2 + 1)
    else acc) (0, 0)

open Classical in
/-- `Ship.calculateSailEfficiency` (untyped version): average of the
open-sail contributions, capped at 1.5; 0 with no open sail. -/
noncomputable def calculateSailEfficiency (windDirection shipAngle : ℝ)
    (sails : List SailState) : ℝ :=
  let t := shipSailTotals windDirection shipAngle sails
  if 0 < t.2 then min 1.5 (t.1 / t.2) else 0

open Classical in
/-- `Ship.calculateSailEfficiency` (typed version): as the untyped one
but floored at 0.2 when any sail is open. -/
noncomputable def calculateSailEfficiencyTyped (windDirection shipAngle : ℝ)
    (sails : List SailState) : ℝ :=
  let t := shipSailTotals windDirection shipAngle sails
  if 0 < t.2 then max 0.2 (min 1.5 (t.1 / t.2)) else 0

/-- `sailsAreOpen`: some sail module has positive openness. -/
def sailsAreOpen (sails : List SailState) : Prop :=
  ∃ m ∈ sails, 0 < m.openness

open Classical in
/-- Average openness over all sail modules (0 when there are none). -/
noncomputable def avgSailOpenness (sails : List SailState) : ℝ :=
  if sails.length ≠ 0 then
    (sails.map SailState.openness).sum / sails.length else 0

open Classical in
/-- The force vector passed to `Matter.Body.applyForce` by the untyped
`Ship.applyWindForce` (zero when no sail is open, in which case no force
is applied). -/
noncomputable def applyWindForceVector (windDirection windPower shipAngle : ℝ)
    (sails : List SailState) : ℝ × ℝ :=
  if sailsAreOpen sails then
    let sailEfficiency := calculateSailEfficiency windDirection shipAngle sails
    let forwardForce := windPower * sailEfficiency * 0.024
    let effectiveForce := if 0 < sailEfficiency then
      forwardForce * alignmentFactor windDirection shipAngle else 0
    (Real.cos shipAngle * effectiveForce, Real.sin shipAngle * effectiveForce)
  else (0, 0)

open Classical in
/-- The force vector applied by the typed `Ship.applyWindForce`:
constant base force 0.8 plus wind power, efficiency floored at 0.40,
scaled by the openness factor and the typed alignment factor. -/
noncomputable def applyWindForceVectorTyped (windDirection windPower shipAngle : ℝ)
    (sails : List SailState) : ℝ × ℝ :=
  if sailsAreOpen sails then
    let sailEfficiency := calculateSailEfficiencyTyped windDirection shipAngle sails
    let baseEfficiency := max 0.40 sailEfficiency
    let opennessFactor := avgSailOpenness sails / 100
    let forwardForce := (0.8 + windPower) * baseEfficiency * 0.08 * opennessFactor
    let finalForce := if 0 < sailEfficiency then
      forwardForce * alignmentFactorTyped windDirection shipAngle else 0
    (Real.cos shipAngle * finalForce, Real.sin shipAngle * finalForce)
  else (0, 0)

/-! ## Typed `Ship.rotateSails` (velocity save/restore) -/
/-- The ship state touched by the typed `rotateSails`: physics-body
velocity, pose fields, the sail modules and the sail-rotation animation
flags. -/
structure ShipTyped where
  positionX : ℝ
  positionY : ℝ
  bodyAngle : ℝ
  velocityX : ℝ
  velocityY : ℝ
  rudderAngle : ℝ
  momentum : ℝ
  sails : List SailState
  isRotatingSails : Bool
  sailRotationTimer : ℝ

/-- The typed `Ship.rotateSails(direction)`: store the current velocity,
set the rotation animation flag and its 10-tick timer, rotate every sail
through the `SailModule` methods at rate 1.25, and restore the stored
velocity via `Matter.Body.setVelocity`. -/
noncomputable def rotateSailsTyped (dir : SailDir) (s : ShipTyped) : ShipTyped :=
  let savedVelocityX := s.velocityX
  let savedVelocityY := s.velocityY
  { s with
    isRotatingSails := true
    sailRotationTimer := 10
    sails := s.sails.map (rotateSailTypedOne dir)
    velocityX := savedVelocityX
    velocityY := savedVelocityY }

open Classical in
/-- The raised wind-power floor of `updateWind`: 0.75 within 30 degrees
of due east (π/2) or due west (3π/2), otherwise 0.5. -/
noncomputable def windMinPower (dir : ℝ) : ℝ :=
  if |dir - π / 2| < π / 6 ∨ |dir - 3 * π / 2| < π / 6 then 0.75 else 0.5

/-- Distance of the wind direction to the north-south axis, computed
with the JS `%` operator exactly as in `updateWind`. -/
noncomputable def northSouthAxisDist (dir : ℝ) : ℝ :=
  min |jsRem dir π| |jsRem (dir - π) π|

/-- The north-south alignment value of `updateWind` (1 on the axis). -/
noncomputable def northSouthAlignment (dir : ℝ) : ℝ :=
  1 - northSouthAxisDist dir / (π / 2)

/-- The wind direction `updateWind` stores: position in the 5-minute
cycle (JS `%` of the elapsed milliseconds) times 2π, then the
normalization loops into `[0, 2π)`. -/
noncomputable def windDirAt (elapsed : ℝ) : ℝ :=
  norm2pi (jsRem elapsed 300000 / 300000 * π * 2)

open Classical in
/-- The wind power `updateWind` stores: the floor-to-2.0 scaling by the
north-south alignment, plus the random jitter `(rand - 0.5) * 0.1`, then
the two clamping `if`s. -/
noncomputable def windPowerAt (elapsed rand : ℝ) : ℝ :=
  let dir := windDirAt elapsed
  let p1 := windMinPower dir + northSouthAlignment dir * (2.0 - windMinPower dir)
    + (rand - 0.5) * 0.1
  let p2 := if p1 < 0.5 then 0.5 else p1
  if p2 > 2.0 then 2.0 else p2

/-- `WorldManager.updateWind`, as the pair (windDirection, windPower) it
stores, for a given elapsed time since the wind system started and a
given `Math.random()` draw. -/
noncomputable def updateWind (elapsed rand : ℝ) : ℝ × ℝ :=
  (windDirAt elapsed, windPowerAt elapsed rand)

/-! ## Deck geometry: hull containment, obstacles, dismount search -/
/-- Module type strings used by the ship. -/
inductive ModuleType where
  | sail
  | cannon
  | wheel
  | plank
  | other
deriving DecidableEq

/-- A mounted ship module as seen by the walkability code: its type, its
`position` and its stored visual position (`getModuleVisualPosition`). -/
structure ShipModule where
  type : ModuleType
  posX : ℝ
  posY : ℝ
  visualX : ℝ
  visualY : ℝ

/-- The ship state used by `isPositionOnDeck` and
`findSafeDismountPosition`: world position, body angle, and the mounted
modules. -/
structure ShipGeom where
  posX : ℝ
  posY : ℝ
  angle : ℝ
  modules : List ShipModule

/-- `Ship.MASTS`: positions and radii of the three mast obstacles. -/
def MASTS : List (ℝ × ℝ × ℝ) := [(165, 0, 30), (-35, 0, 30), (-235, 0, 30)]

/-- `Ship.CANNONS`: positions and sizes of the six cannon obstacles. -/
def CANNONS : List (ℝ × ℝ × ℝ × ℝ) :=
  [(-35, 75, 30, 30), (65, 75, 30, 30), (-135, 75, 30, 30),
   (-35, -75, 30, 30), (65, -75, 30, 30), (-135, -75, 30, 30)]

/-- The analytic hull approximation used by the untyped
`isPositionOnDeck` when no drawing context is available: bounding box
[-300, 320] x [-90, 90] with parabolic bow and stern cutouts. -/
def inHullApprox (rx ry : ℝ) : Prop :=
  rx ≥ -300 ∧ rx ≤ 320 ∧ ry ≥ -90 ∧ ry ≤ 90 ∧
  ¬(rx > 150 ∧ |ry| > 90 * (1 - ((rx - 150) / 175) ^ 2)) ∧
  ¬(rx < -220 ∧ |ry| > 90 * (1 - ((|rx| - 220) / 85) ^ 2))

/-- Modelled from the spec: the exact polygon/curve containment test
(`ctx.isPointInPath` on the hull `Path2D`) is a canvas primitive whose
implementation is not part of the repository; this is the closed form of
the region enclosed by `createHullPath` built from `HULL_POINTS`.  The
bow quadratic Bezier from (190, 90) through control (415, 0) to
(190, -90) is x = 190 + 112.5 (1 - (y/90)^2); the stern Bezier from
(-260, -90) through (-345, 0) to (-260, 90) is
x = -260 - 42.5 (1 - (y/90)^2); the top and bottom edges are the lines
y = 90 and y = -90 between them. -/
def inHullExact (rx ry : ℝ) : Prop :=
  |ry| ≤ 90 ∧ -260 - 42.5 * (1 - (ry / 90) ^ 2) ≤ rx ∧
    rx ≤ 190 + 112.5 * (1 - (ry / 90) ^ 2)

/-- The bounding-box hull fallback of the typed `isPositionOnDeck`
(based on the hull extreme points including the Bezier controls). -/
def inHullBoxTyped (rx ry : ℝ) : Prop :=
  ¬(rx < -345 ∨ rx > 415 ∨ ry < -90 ∨ ry > 90)

/-- A point is inside one of the mast circles. -/
def inMast (rx ry : ℝ) : Prop :=
  ∃ m ∈ MASTS, (rx - m.1) ^ 2 + (ry - m.2.1) ^ 2 < m.2.2 ^ 2

/-- A point is strictly inside the wheel rectangle
(`Ship.WHEEL = { x: -90, y: 0, w: 20, h: 40 }`). -/
def inWheel (rx ry : ℝ) : Prop :=
  rx > -90 - 20 / 2 ∧ rx < -90 + 20 / 2 ∧ ry > 0 - 40 / 2 ∧ ry < 0 + 40 / 2

/-- A point is strictly inside one of the cannon rectangles. -/
def inCannon (rx ry : ℝ) : Prop :=
  ∃ c ∈ CANNONS, rx > c.1 - c.2.2.1 / 2 ∧ rx < c.1 + c.2.2.1 / 2 ∧
    ry > c.2.1 - c.2.2.2 / 2 ∧ ry < c.2.1 + c.2.2.2 / 2

/-- The module is skipped by the dynamic-obstacle check because it is
already handled as a static obstacle (the main wheel, or a cannon at one
of the static cannon positions). -/
def isStaticObstacleModule (m : ShipModule) : Prop :=
  (m.type = ModuleType.wheel ∧ m.posX = -90 ∧ m.posY = 0) ∨
  (m.type = ModuleType.cannon ∧ ∃ c ∈ CANNONS, c.1 = m.posX ∧ c.2.1 = m.posY)

/-- A non-static module blocks the point when it lies strictly inside
the 20 x 20 box around the module's visual position. -/
def moduleBlocks (m : ShipModule) (rx ry : ℝ) : Prop :=
  ¬ isStaticObstacleModule m ∧
  rx > m.visualX - 20 / 2 ∧ rx < m.visualX + 20 / 2 ∧
  ry > m.visualY - 20 / 2 ∧ ry < m.visualY + 20 / 2

/-- World-to-local transform of `isPositionOnDeck`: translate by the
ship position and rotate by `-body.angle`. -/
noncomputable def toLocal (s : ShipGeom) (x y : ℝ) : ℝ × ℝ :=
  ((x - s.posX) * Real.cos (-s.angle) - (y - s.posY) * Real.sin (-s.angle),
   (x - s.posX) * Real.sin (-s.angle) + (y - s.posY) * Real.cos (-s.angle))

/-- `Ship.isPositionOnDeck(x, y, ctx?)`: hull containment (the exact
path test when a context is available, the analytic approximation
otherwise), then exclusion of masts, wheel, cannons and non-static
module boxes. -/
noncomputable def isPositionOnDeck (s : ShipGeom) (hasCtx : Bool) (x y : ℝ) : Prop :=
  let p := toLocal s x y
  (if hasCtx then inHullExact p.1 p.2 else inHullApprox p.1 p.2) ∧
  ¬ inMast p.1 p.2 ∧ ¬ inWheel p.1 p.2 ∧ ¬ inCannon p.1 p.2 ∧
  ∀ m ∈ s.modules, ¬ moduleBlocks m p.1 p.2

/-- The candidate world points of `findSafeDismountPosition`: 8
directions at 5 radial increments up to radius 60 around the start
point, converted back to world coordinates. -/
noncomputable def dismountCandidates (s : ShipGeom) (x y : ℝ) : List (ℝ × ℝ) :=
  let p := toLocal s x y
  (List.range 5).flatMap fun incIdx =>
    (List.range 8).map fun i =>
      let stepDistance := 60 * ((incIdx : ℝ) + 1) / 5
      let a := (i : ℝ) / 8 * (π * 2)
      let tlx := p.1 + Real.cos a * stepDistance
      let tly := p.2 + Real.sin a * stepDistance
      (s.posX + tlx * Real.cos s.angle - tly * Real.sin s.angle,
       s.posY + tlx * Real.sin s.angle + tly * Real.cos s.angle)

open Classical in
/-- The search loop of `findSafeDismountPosition`: return the first
candidate that passes `isPositionOnDeck`, if any. -/
noncomputable def firstWalkable (s : ShipGeom) (hasCtx : Bool) :
    List (ℝ × ℝ) → Option (ℝ × ℝ)
  | [] => none
  | q :: t =>
    if isPositionOnDeck s hasCtx q.1 q.2 then some q
    else firstWalkable s hasCtx t

open Classical in
/-- `Ship.findSafeDismountPosition(startX, startY, ctx?)`: the start
point if already walkable, otherwise the first walkable candidate of the
radial search, otherwise the ship center as a last resort. -/
noncomputable def findSafeDismountPosition (s : ShipGeom) (hasCtx : Bool)
    (x y : ℝ) : ℝ × ℝ :=
  if isPositionOnDeck s hasCtx x y then (x, y)
  else
    match firstWalkable s hasCtx (dismountCandidates s x y) with
    | some q => q
    | none => (s.posX, s.posY)

/-- A ship with one dynamically mounted module whose visual position is
the ship center (the C3 counterexample state). -/
noncomputable def shipWithCenterModule : ShipGeom :=
  { posX := 0, posY := 0, angle := 0
    modules := [{ type := ModuleType.other, posX := 0, posY := 0,
                  visualX := 0, visualY := 0 }] }

/-- A ship with no mounted modules (for the C3 witness). -/
noncomputable def emptyDeckShip : ShipGeom :=
  { posX := 0, posY := 0, angle := 0, modules := [] }

/-! ## Theorems -/

theorem jsRem_nonneg_eq (a b : ℝ) (ha : 0 ≤ a) (hb : 0 < b) :
    jsRem a b = a - b * ⌊a / b⌋ := by
  unfold jsRem truncInt
  rw [if_pos (div_nonneg ha hb.le)]

theorem norm2pi_eq_self {x : ℝ} (h0 : 0 ≤ x) (h1 : x < 2 * π) : norm2pi x = x := by
  unfold norm2pi
  have hpos : (0 : ℝ) < 2 * π := by positivity
  have : ⌊x / (2 * π)⌋ = 0 := by
    rw [Int.floor_eq_zero_iff]
    constructor
    · exact div_nonneg h0 hpos.le
    · rw [div_lt_one hpos]; exact h1
  rw [this]; push_cast; ring

theorem norm2pi_sub_int (x : ℝ) : ∃ k : ℤ, norm2pi x = x - 2 * π * k :=
  ⟨⌊x / (2 * π)⌋, rfl⟩

theorem normPi_sub_int (x : ℝ) : ∃ k : ℤ, normPi x = x - 2 * π * k := by
  unfold normPi
  split
  · exact ⟨⌈(x - π) / (2 * π)⌉, rfl⟩
  · split
    · refine ⟨-⌈(-π - x) / (2 * π)⌉, ?_⟩; push_cast; ring
    · exact ⟨0, by push_cast; ring⟩

theorem normPi_eq_self {x : ℝ} (h0 : -π ≤ x) (h1 : x ≤ π) : normPi x = x := by
  unfold normPi
  rw [if_neg (by linarith), if_neg (by linarith)]

theorem normPi_mem {x : ℝ} : -π ≤ normPi x ∧ normPi x ≤ π := by
  have hpos : (0 : ℝ) < 2 * π := by positivity
  unfold normPi
  split_ifs with h1 h2
  · set k := ⌈(x - π) / (2 * π)⌉ with hk
    have ht : (x - π) / (2 * π) * (2 * π) = x - π :=
      div_mul_cancel₀ _ (ne_of_gt hpos)
    have hup : ((x - π) / (2 * π) : ℝ) ≤ k := Int.le_ceil _
    have hlow : (k : ℝ) < (x - π) / (2 * π) + 1 := by
      have := Int.ceil_lt_add_one ((x - π) / (2 * π))
      simpa using this
    have hup2 : x - π ≤ (k : ℝ) * (2 * π) := by nlinarith
    have hlow2 : (k : ℝ) * (2 * π) < x - π + 2 * π := by nlinarith
    constructor <;> nlinarith
  · set k := ⌈(-π - x) / (2 * π)⌉ with hk
    have ht : (-π - x) / (2 * π) * (2 * π) = -π - x :=
      div_mul_cancel₀ _ (ne_of_gt hpos)
    have hup : ((-π - x) / (2 * π) : ℝ) ≤ k := Int.le_ceil _
    have hlow : (k : ℝ) < (-π - x) / (2 * π) + 1 := by
      have := Int.ceil_lt_add_one ((-π - x) / (2 * π))
      simpa using this
    have hup2 : -π - x ≤ (k : ℝ) * (2 * π) := by nlinarith
    have hlow2 : (k : ℝ) * (2 * π) < -π - x + 2 * π := by nlinarith
    constructor <;> nlinarith
  · exact ⟨by linarith, by linarith⟩

/-- Adding an integer multiple of `2π` does not change the normalized value,
for values strictly inside `(-π, π)`. -/
theorem normPi_add_int_mul {x : ℝ} (k : ℤ) (h0 : -π < x) (h1 : x < π) :
    normPi (x + 2 * π * k) = x := by
  have hpos : (0 : ℝ) < 2 * π := by positivity
  have hceil0 : ⌈(x - π) / (2 * π)⌉ = 0 := by
    rw [Int.ceil_eq_zero_iff, Set.mem_Ioc]
    constructor
    · rw [lt_div_iff₀ hpos]; linarith
    · rw [div_nonpos_iff]; right; constructor <;> linarith
  have hceil0' : ⌈(-π - x) / (2 * π)⌉ = 0 := by
    rw [Int.ceil_eq_zero_iff, Set.mem_Ioc]
    constructor
    · rw [lt_div_iff₀ hpos]; linarith
    · rw [div_nonpos_iff]; right; constructor <;> linarith
  unfold normPi
  rcases lt_trichotomy k 0 with hk | hk | hk
  · have hk1 : (k : ℝ) ≤ -1 := by
      have : k ≤ -1 := by omega
      exact_mod_cast this
    have hlt : x + 2 * π * k < -π := by nlinarith
    rw [if_neg (by nlinarith), if_pos hlt]
    have : (-π - (x + 2 * π * k)) / (2 * π) = (-π - x) / (2 * π) + (-k : ℤ) := by
      push_cast; field_simp; ring
    rw [this, Int.ceil_add_int, hceil0']
    push_cast; ring
  · subst hk
    norm_num
    rw [if_neg (by linarith), if_neg (by linarith)]
  · have hk1 : (1 : ℝ) ≤ (k : ℝ) := by exact_mod_cast hk
    have hgt : π < x + 2 * π * k := by nlinarith
    rw [if_pos hgt]
    have : (x + 2 * π * k - π) / (2 * π) = (x - π) / (2 * π) + (k : ℤ) := by
      field_simp; ring
    rw [this, Int.ceil_add_int, hceil0]
    push_cast; ring

theorem reload_angles (now : ℝ) (c : Cannon) :
    (CannonModule.reload now c).turretAngle = c.turretAngle ∧
    (CannonModule.reload now c).targetTurretAngle = c.targetTurretAngle ∧
    (CannonModule.reload now c).rotationSpeed = c.rotationSpeed := by
  simp only [CannonModule.reload]
  split_ifs <;> exact ⟨rfl, rfl, rfl⟩

theorem rotateTurret_const (c : Cannon) :
    (CannonModule.rotateTurret c).targetTurretAngle = c.targetTurretAngle ∧
    (CannonModule.rotateTurret c).rotationSpeed = c.rotationSpeed := by
  simp only [CannonModule.rotateTurret]
  split_ifs <;> exact ⟨rfl, rfl⟩

theorem cannonUpdate_const (now : ℝ) (c : Cannon) :
    (CannonModule.update now c).targetTurretAngle = c.targetTurretAngle ∧
    (CannonModule.update now c).rotationSpeed = c.rotationSpeed := by
  unfold CannonModule.update
  obtain ⟨h1, h2, h3⟩ := reload_angles now c
  obtain ⟨h4, h5⟩ := rotateTurret_const (CannonModule.reload now c)
  exact ⟨h4.trans h2, h5.trans h3⟩

theorem cannonUpdate_fixed (now : ℝ) (c : Cannon)
    (h : c.turretAngle = c.targetTurretAngle) :
    (CannonModule.update now c).turretAngle = c.turretAngle := by
  unfold CannonModule.update
  obtain ⟨h1, h2, h3⟩ := reload_angles now c
  simp only [CannonModule.rotateTurret]
  rw [if_pos (by rw [h1, h2, h])]
  rw [h1]

/-- Post-move normalized difference: moving the turret by `r * dir` and
renormalizing into `[0, 2π)` shifts the normalized difference by exactly
`r * dir`, as long as the shifted difference stays inside `(-π, π)`. -/
theorem newDiff_eq (turret target r : ℝ) (dir : ℝ)
    (hb1 : -π < normPi (target - turret) - r * dir)
    (hb2 : normPi (target - turret) - r * dir < π) :
    normPi (target - norm2pi (turret + r * dir)) =
      normPi (target - turret) - r * dir := by
  obtain ⟨m, hm⟩ := norm2pi_sub_int (turret + r * dir)
  obtain ⟨k, hk⟩ := normPi_sub_int (target - turret)
  rw [hm]
  have harg : target - (turret + r * dir - 2 * π * m)
      = (normPi (target - turret) - r * dir) + 2 * π * ((k + m : ℤ)) := by
    push_cast
    linear_combination -hk
  rw [harg]
  exact normPi_add_int_mul _ hb1 hb2

/-- One rotation step, far from the target (at least two ticks of
rotation remaining): the turret does not reach the target and the
normalized difference shrinks by exactly `rotationSpeed` toward the
target.  Close to the target (less than two ticks remaining): the
turret snaps exactly onto the target. -/
theorem rotateTurret_step (c : Cannon)
    (hr0 : 0 < c.rotationSpeed) (hrpi : c.rotationSpeed < π) :
    (2 * c.rotationSpeed ≤ |turretDiff c| →
      (CannonModule.rotateTurret c).turretAngle ≠ c.targetTurretAngle ∧
      turretDiff (CannonModule.rotateTurret c) =
        turretDiff c -
          (if 0 < turretDiff c then c.rotationSpeed else -c.rotationSpeed)) ∧
    (c.turretAngle ≠ c.targetTurretAngle → |turretDiff c| < 2 * c.rotationSpeed →
      (CannonModule.rotateTurret c).turretAngle = c.targetTurretAngle) := by
  have hpi : (0 : ℝ) < π := pi_pos
  obtain ⟨hDlo, hDhi⟩ := normPi_mem (x := c.targetTurretAngle - c.turretAngle)
  have hne0 : 0 < |normPi (c.targetTurretAngle - c.turretAngle)| →
      c.turretAngle ≠ c.targetTurretAngle := by
    intro habs h
    rw [h, sub_self, normPi_eq_self (by linarith) (by linarith)] at habs
    simp at habs
  have hnew := newDiff_eq c.turretAngle c.targetTurretAngle c.rotationSpeed
  simp only [CannonModule.rotateTurret, turretDiff]
  constructor
  · intro hfar
    have hne : c.turretAngle ≠ c.targetTurretAngle := hne0 (by linarith)
    rw [if_neg hne]
    rcases lt_or_le 0 (normPi (c.targetTurretAngle - c.turretAngle)) with hD0 | hD0
    · have h2r : 2 * c.rotationSpeed ≤ normPi (c.targetTurretAngle - c.turretAngle) := by
        rw [abs_of_pos hD0] at hfar; exact hfar
      rw [if_pos hD0]
      have hnd := hnew 1 (by nlinarith) (by nlinarith)
      rw [hnd]
      rw [if_neg (by
        push_neg
        refine ⟨?_, ?_⟩
        · rw [abs_of_nonneg (by nlinarith)]; nlinarith
        · constructor <;> intro <;> nlinarith)]
      constructor
      · intro hMeq
        simp only at hMeq
        rw [hMeq, sub_self, normPi_eq_self (by linarith) (by linarith)] at hnd
        nlinarith
      · simp only
        rw [hnd, if_pos hD0]
        ring
    · have h2r : 2 * c.rotationSpeed ≤ -(normPi (c.targetTurretAngle - c.turretAngle)) := by
        rw [abs_of_nonpos hD0] at hfar; exact hfar
      rw [if_neg (not_lt.mpr hD0)]
      have hnd := hnew (-1) (by nlinarith) (by nlinarith)
      rw [hnd]
      rw [if_neg (by
        push_neg
        refine ⟨?_, ?_⟩
        · rw [abs_of_nonpos (by nlinarith)]; nlinarith
        · constructor <;> intro <;> nlinarith)]
      constructor
      · intro hMeq
        simp only at hMeq
        rw [hMeq, sub_self, normPi_eq_self (by linarith) (by linarith)] at hnd
        nlinarith
      · simp only
        rw [hnd, if_neg (not_lt.mpr hD0)]
        ring
  · intro hne hnear
    rw [if_neg hne]
    rcases lt_trichotomy (normPi (c.targetTurretAngle - c.turretAngle)) 0 with hD0 | hD0 | hD0
    · have h2r : -(normPi (c.targetTurretAngle - c.turretAngle)) < 2 * c.rotationSpeed := by
        rw [abs_of_nonpos hD0.le] at hnear; exact hnear
      rw [if_neg (not_lt.mpr hD0.le)]
      have hnd := hnew (-1) (by nlinarith) (by nlinarith)
      rw [hnd]
      rw [if_pos (Or.inl (by rw [abs_lt]; constructor <;> nlinarith))]
    · have hnd := hnew (-1) (by rw [hD0]; nlinarith) (by rw [hD0]; nlinarith)
      rw [if_neg (not_lt.mpr hD0.le)]
      rw [hnd]
      rw [if_pos (Or.inr (by
        rw [hD0]
        intro hiff
        have h1 : (0 : ℝ) < 0 - c.rotationSpeed * (-1) := by nlinarith
        exact absurd (hiff.mpr h1) (lt_irrefl 0)))]
    · have h2r : normPi (c.targetTurretAngle - c.turretAngle) < 2 * c.rotationSpeed := by
        rw [abs_of_pos hD0] at hnear; exact hnear
      rw [if_pos hD0]
      have hnd := hnew 1 (by nlinarith) (by nlinarith)
      rw [hnd]
      rw [if_pos (Or.inl (by rw [abs_lt]; constructor <;> nlinarith))]

/-- `turretDiff` only depends on the angle fields, which `reload` keeps. -/
theorem turretDiff_reload (now : ℝ) (c : Cannon) :
    turretDiff (CannonModule.reload now c) = turretDiff c := by
  obtain ⟨h1, h2, h3⟩ := reload_angles now c
  unfold turretDiff
  rw [h1, h2]

/-- The step analysis lifted from `rotateTurret` to the full `update`. -/
theorem cannonUpdate_step (now : ℝ) (c : Cannon)
    (hr0 : 0 < c.rotationSpeed) (hrpi : c.rotationSpeed < π) :
    (2 * c.rotationSpeed ≤ |turretDiff c| →
      (CannonModule.update now c).turretAngle ≠ c.targetTurretAngle ∧
      turretDiff (CannonModule.update now c) =
        turretDiff c -
          (if 0 < turretDiff c then c.rotationSpeed else -c.rotationSpeed)) ∧
    (c.turretAngle ≠ c.targetTurretAngle → |turretDiff c| < 2 * c.rotationSpeed →
      (CannonModule.update now c).turretAngle = c.targetTurretAngle) := by
  obtain ⟨h1, h2, h3⟩ := reload_angles now c
  have hstep := rotateTurret_step (CannonModule.reload now c)
    (by rw [h3]; exact hr0) (by rw [h3]; exact hrpi)
  rw [turretDiff_reload, h1, h2, h3] at hstep
  exact hstep

/-- Once the turret has reached its target it stays there under `update`. -/
theorem cannonUpdate_iter_fixed (now : ℝ) (n : ℕ) :
    ∀ c : Cannon, c.turretAngle = c.targetTurretAngle →
      ((CannonModule.update now)^[n] c).turretAngle = c.targetTurretAngle := by
  induction n with
  | zero => intro c h; simpa using h
  | succ n ih =>
    intro c h
    rw [Function.iterate_succ_apply]
    have h1 := cannonUpdate_fixed now c h
    have h2 := (cannonUpdate_const now c).1
    have := ih (CannonModule.update now c) (by rw [h1, h2, h])
    rw [this, h2]

/-- Convergence: once `n` ticks of rotation cover the initial normalized
difference, the turret angle is exactly the target angle. -/
theorem cannonUpdate_iter (now : ℝ) (n : ℕ) :
    ∀ c : Cannon, 0 < c.rotationSpeed → c.rotationSpeed < π →
      turretDiff c ≠ 0 → |turretDiff c| ≤ n * c.rotationSpeed →
      ((CannonModule.update now)^[n] c).turretAngle = c.targetTurretAngle := by
  induction n with
  | zero =>
    intro c hr0 hrpi hd0 habs
    exfalso
    simp only [Nat.cast_zero, zero_mul] at habs
    exact hd0 (abs_eq_zero.mp (le_antisymm habs (abs_nonneg _)))
  | succ n ih =>
    intro c hr0 hrpi hd0 habs
    rw [Function.iterate_succ_apply]
    have htgt := (cannonUpdate_const now c).1
    have hrs := (cannonUpdate_const now c).2
    by_cases hfar : 2 * c.rotationSpeed ≤ |turretDiff c|
    · obtain ⟨hne', hdiff'⟩ := (cannonUpdate_step now c hr0 hrpi).1 hfar
      have habs' : |turretDiff (CannonModule.update now c)| =
          |turretDiff c| - c.rotationSpeed := by
        rw [hdiff']
        rcases lt_or_le 0 (turretDiff c) with h | h
        · rw [if_pos h, abs_of_pos h, abs_of_nonneg (by
            rw [abs_of_pos h] at hfar; linarith)]
        · rw [if_neg (not_lt.mpr h), abs_of_nonpos h, abs_of_nonpos (by
            rw [abs_of_nonpos h] at hfar; linarith)]
          ring
      have hd0' : turretDiff (CannonModule.update now c) ≠ 0 := by
        intro h
        rw [h, abs_zero] at habs'
        linarith
      have hbound : |turretDiff (CannonModule.update now c)| ≤
          n * (CannonModule.update now c).rotationSpeed := by
        rw [habs', hrs]
        push_cast at habs ⊢
        linarith
      have := ih (CannonModule.update now c) (by rw [hrs]; exact hr0)
        (by rw [hrs]; exact hrpi) hd0' hbound
      rw [this, htgt]
    · push_neg at hfar
      have hne : c.turretAngle ≠ c.targetTurretAngle := by
        intro h
        apply hd0
        unfold turretDiff
        rw [h, sub_self]
        exact normPi_eq_self (by linarith [pi_pos]) (by linarith [pi_pos])
      have hsnap := (cannonUpdate_step now c hr0 hrpi).2 hne hfar
      have := cannonUpdate_iter_fixed now n (CannonModule.update now c)
        (by rw [hsnap, htgt])
      rw [this, htgt]

/-- Far from the target, one update shrinks the absolute normalized
difference by exactly one tick and keeps its sign. -/
theorem cannonUpdate_far (now : ℝ) (c : Cannon)
    (hr0 : 0 < c.rotationSpeed) (hrpi : c.rotationSpeed < π)
    (hfar : 2 * c.rotationSpeed ≤ |turretDiff c|) :
    |turretDiff (CannonModule.update now c)| = |turretDiff c| - c.rotationSpeed ∧
    ((0 < turretDiff (CannonModule.update now c)) ↔ (0 < turretDiff c)) := by
  obtain ⟨hne', hdiff'⟩ := (cannonUpdate_step now c hr0 hrpi).1 hfar
  rcases lt_or_le 0 (turretDiff c) with h | h
  · rw [abs_of_pos h] at hfar
    rw [hdiff', if_pos h]
    constructor
    · rw [abs_of_pos h, abs_of_nonneg (by linarith)]
    · constructor <;> intro <;> linarith
  · rw [abs_of_nonpos h] at hfar
    rw [hdiff', if_neg (not_lt.mpr h)]
    constructor
    · rw [abs_of_nonpos h, abs_of_nonpos (by linarith)]; ring
    · constructor <;> intro <;> linarith

/-- C2: repeated `update` calls rotate `turretAngle` toward
`targetTurretAngle` at the fixed per-tick rate along the shorter
direction (the normalized difference shrinks by exactly one tick and
keeps its sign), snap exactly onto the target once the remaining
difference is within one tick of rotation, never leave the turret past
the target, and from a difference `d` the turret equals the target after
`ceil (|d| / rate)` ticks; in particular from -40 degrees to +40 degrees
the turret reaches the target exactly after `ceil (80 degrees / rate)`
ticks. -/
theorem cannon_update_converges (now : ℝ) (c : Cannon)
    (hr0 : 0 < c.rotationSpeed) (hrpi : c.rotationSpeed < π) :
    (2 * c.rotationSpeed ≤ |turretDiff c| →
      turretDiff (CannonModule.update now c) =
        turretDiff c -
          (if 0 < turretDiff c then c.rotationSpeed else -c.rotationSpeed)) ∧
    (c.turretAngle ≠ c.targetTurretAngle → |turretDiff c| ≤ c.rotationSpeed →
      (CannonModule.update now c).turretAngle = c.targetTurretAngle) ∧
    ((CannonModule.update now c).turretAngle = c.targetTurretAngle ∨
      (|turretDiff (CannonModule.update now c)| = |turretDiff c| - c.rotationSpeed ∧
       ((0 < turretDiff (CannonModule.update now c)) ↔ (0 < turretDiff c)))) ∧
    (turretDiff c ≠ 0 → ∀ n : ℕ, ⌈|turretDiff c| / c.rotationSpeed⌉₊ ≤ n →
      ((CannonModule.update now)^[n] c).turretAngle = c.targetTurretAngle) ∧
    (c.turretAngle = -(2 * π / 9) → c.targetTurretAngle = 2 * π / 9 →
      ∀ n : ℕ, ⌈(4 * π / 9) / c.rotationSpeed⌉₊ ≤ n →
        ((CannonModule.update now)^[n] c).turretAngle = 2 * π / 9) := by
  have hpi : (0 : ℝ) < π := pi_pos
  have hconv : turretDiff c ≠ 0 → ∀ n : ℕ, ⌈|turretDiff c| / c.rotationSpeed⌉₊ ≤ n →
      ((CannonModule.update now)^[n] c).turretAngle = c.targetTurretAngle := by
    intro hd0 n hn
    apply cannonUpdate_iter now n c hr0 hrpi hd0
    have h1 : |turretDiff c| / c.rotationSpeed ≤ (n : ℝ) := by
      calc |turretDiff c| / c.rotationSpeed
          ≤ (⌈|turretDiff c| / c.rotationSpeed⌉₊ : ℝ) := Nat.le_ceil _
        _ ≤ (n : ℝ) := by exact_mod_cast hn
    calc |turretDiff c| = |turretDiff c| / c.rotationSpeed * c.rotationSpeed := by
          field_simp
      _ ≤ (n : ℝ) * c.rotationSpeed := by
          exact mul_le_mul_of_nonneg_right h1 hr0.le
  refine ⟨?_, ?_, ?_, hconv, ?_⟩
  · intro hfar
    exact ((cannonUpdate_step now c hr0 hrpi).1 hfar).2
  · intro hne hnear
    exact (cannonUpdate_step now c hr0 hrpi).2 hne (by linarith)
  · by_cases hfar : 2 * c.rotationSpeed ≤ |turretDiff c|
    · exact Or.inr (cannonUpdate_far now c hr0 hrpi hfar)
    · push_neg at hfar
      by_cases hne : c.turretAngle = c.targetTurretAngle
      · left
        rw [cannonUpdate_fixed now c hne, hne]
      · exact Or.inl ((cannonUpdate_step now c hr0 hrpi).2 hne hfar)
  · intro hturret htarget n hn
    have hd : turretDiff c = 4 * π / 9 := by
      unfold turretDiff
      rw [hturret, htarget]
      have harg : 2 * π / 9 - -(2 * π / 9) = 4 * π / 9 := by ring
      rw [harg]
      exact normPi_eq_self (by nlinarith) (by nlinarith)
    have habs : |turretDiff c| = 4 * π / 9 := by
      rw [hd]; exact abs_of_pos (by positivity)
    have := hconv (by rw [hd]; positivity) n (by rw [habs]; exact hn)
    rw [this, htarget]

/-- Witness for C2 at the concrete scenario cannon: rotation rate
0.005 rad/tick, difference 80 degrees = 4π/9 rad, and
ceil((4π/9) / 0.005) = ceil(800π/9) = 280: after 280 ticks the turret
angle is exactly the target +40 degrees. -/
theorem cannon_update_converges_witness :
    ⌈(4 * π / 9) / scenarioCannon.rotationSpeed⌉₊ ≤ 280 ∧
    ((CannonModule.update 0)^[280] scenarioCannon).turretAngle = 2 * π / 9 := by
  have hlt : π < 3.1416 := pi_lt_d6.trans (by norm_num)
  have hgt : (3.1415 : ℝ) < π := by
    have := pi_gt_d6
    linarith
  have hceil : ⌈(4 * π / 9) / scenarioCannon.rotationSpeed⌉₊ ≤ 280 := by
    rw [Nat.ceil_le]
    show (4 * π / 9) / (0.005 : ℝ) ≤ (280 : ℕ)
    push_cast
    rw [div_le_iff₀ (by norm_num)]
    nlinarith
  refine ⟨hceil, ?_⟩
  exact (cannon_update_converges 0 scenarioCannon
    (by show (0 : ℝ) < 0.005; norm_num)
    (by show (0.005 : ℝ) < π; linarith)).2.2.2.2
    (by show -(2 * π / 9) = -(2 * π / 9); rfl) rfl 280 hceil

/-- C7: firing a cannon whose loaded flag is `false` returns `false` and
leaves the whole cannon state (turret angle, target angle, loaded flag,
reload timer) unchanged, spawning nothing and emitting no diagnostic;
the failure is the returned Boolean, not an exception. -/
theorem fire_not_loaded_noop (c : Cannon) (now wx wy sa : ℝ)
    (sv : Option (ℝ × ℝ)) (h : c.isLoaded = false) :
    CannonModule.fire c now wx wy sa sv =
      { fired := false, cannon := c, spawn := none, diagnostic := false } := by
  unfold CannonModule.fire
  rw [if_pos h]

/-- Witness for C7: a concrete unloaded cannon. -/
theorem fire_not_loaded_noop_witness :
    CannonModule.fire unloadedCannon 5 1 2 3 none =
      { fired := false, cannon := unloadedCannon, spawn := none,
        diagnostic := false } :=
  fire_not_loaded_noop unloadedCannon 5 1 2 3 none rfl

/-- C8 counterexample: firing a loaded cannon with a missing game
reference does return `false`, spawn nothing and emit a diagnostic, but
it does NOT leave the cannon state unchanged: the loaded flag is cleared
and the reload timer is set before the collaborator check. -/
theorem fire_missing_game_changes_state :
    (CannonModule.fire orphanCannon 5 0 0 0 none).fired = false ∧
    (CannonModule.fire orphanCannon 5 0 0 0 none).spawn = none ∧
    (CannonModule.fire orphanCannon 5 0 0 0 none).diagnostic = true ∧
    (CannonModule.fire orphanCannon 5 0 0 0 none).cannon.isLoaded = false ∧
    orphanCannon.isLoaded = true ∧
    (CannonModule.fire orphanCannon 5 0 0 0 none).cannon.lastFiredTime = 5 ∧
    orphanCannon.lastFiredTime = 0 :=
  ⟨rfl, rfl, rfl, rfl, rfl, rfl, rfl⟩

/-- C8 (amended): firing a loaded cannon whose game reference is missing
or lacks `addCannonball` emits a diagnostic, spawns no projectile and
returns `false`, but the loaded flag is cleared and the reload timer set
to the firing time before the collaborator check, so the cannon still
goes into reload. -/
theorem fire_missing_game (c : Cannon) (now wx wy sa : ℝ)
    (sv : Option (ℝ × ℝ)) (hl : c.isLoaded = true)
    (hg : c.hasGame = false ∨ c.gameHasAddCannonball = false) :
    CannonModule.fire c now wx wy sa sv =
      { fired := false
        cannon := { c with isLoaded := false, lastFiredTime := now }
        spawn := none, diagnostic := true } := by
  unfold CannonModule.fire
  rw [if_neg (by rw [hl]; simp)]
  rcases hg with hg | hg
  · rw [if_pos hg]
  · by_cases h2 : c.hasGame = false
    · rw [if_pos h2]
    · rw [if_neg h2, if_pos hg]

/-- Witness for the amended C8 at a concrete orphaned cannon. -/
theorem fire_missing_game_witness :
    CannonModule.fire orphanCannon 7 0 0 0 none =
      { fired := false
        cannon := { orphanCannon with isLoaded := false, lastFiredTime := 7 }
        spawn := none, diagnostic := true } :=
  fire_missing_game orphanCannon 7 0 0 0 none rfl (Or.inl rfl)

/-- C5: the sail-efficiency profile as a function of the wind-sail angle
difference is continuous, monotonically non-increasing on [0, 90]
degrees, piecewise-linear from 1.0 at 0 degrees down to the 0.35 floor
at 90 degrees, and constant at the floor beyond 90 degrees; for any
fixed openness the openness-scaled efficiency inherits continuity and
monotonicity, and `SailModule.calculateEfficiency` factors through this
profile. -/
theorem sail_efficiency_profile :
    Continuous effOfDiff ∧
    AntitoneOn effOfDiff (Set.Icc 0 90) ∧
    (∀ d : ℝ, 0 ≤ d → d ≤ 90 → effOfDiff d = 1 - 0.65 * d / 90) ∧
    effOfDiff 0 = 1 ∧
    (∀ d : ℝ, 90 ≤ d → effOfDiff d = 0.35) ∧
    (∀ (s : SailState) (windDirection shipAngle : ℝ),
      SailModule.calculateEfficiency s windDirection shipAngle =
        effOfDiff (windSailAngleDiffDeg windDirection shipAngle s.angle) *
          (s.openness / 100)) ∧
    (∀ o : ℝ, 0 ≤ o →
      AntitoneOn (fun d => effOfDiff d * (o / 100)) (Set.Icc 0 90)) ∧
    (∀ o : ℝ, Continuous (fun d => effOfDiff d * (o / 100))) := by
  have hval : ∀ d : ℝ, 0 ≤ d → d ≤ 90 → effOfDiff d = 1 - 0.65 * d / 90 := by
    intro d h0 h90
    unfold effOfDiff
    rw [if_pos h90, max_eq_right (by linarith), min_eq_right (by linarith)]
  have hcont : Continuous effOfDiff := by
    have hcont0 : Continuous (fun d : ℝ =>
        if d ≤ 90 then 1 - 0.65 * d / 90 else (0.35 : ℝ)) := by
      apply Continuous.if ?_ (by fun_prop) (by fun_prop)
      intro a ha
      have h90 : a = 90 := by
        have : frontier {x : ℝ | x ≤ 90} = {(90 : ℝ)} := frontier_Iic
        rw [this] at ha
        simpa using ha
      rw [h90]; norm_num
    exact Continuous.min continuous_const (Continuous.max continuous_const hcont0)
  have hanti : AntitoneOn effOfDiff (Set.Icc 0 90) := by
    intro a ha b hb hab
    rw [Set.mem_Icc] at ha hb
    rw [hval a ha.1 ha.2, hval b hb.1 hb.2]
    linarith
  have hflat : ∀ d : ℝ, 90 ≤ d → effOfDiff d = 0.35 := by
    intro d hd
    by_cases h : d ≤ 90
    · rw [hval d (by linarith) h, le_antisymm h hd]
      norm_num
    · unfold effOfDiff
      rw [if_neg h]
      norm_num
  refine ⟨hcont, hanti, hval, ?_, hflat, fun s w a => rfl, ?_, ?_⟩
  · rw [hval 0 le_rfl (by norm_num)]
    norm_num
  · intro o ho a ha b hb hab
    exact mul_le_mul_of_nonneg_right (hanti ha hb hab) (by positivity)
  · intro o
    exact hcont.mul continuous_const

/-- Witness for C5: concrete profile values obtained from the theorem. -/
theorem sail_efficiency_profile_witness :
    effOfDiff 45 = 1 - 0.65 * 45 / 90 ∧ effOfDiff 135 = 0.35 :=
  ⟨sail_efficiency_profile.2.2.1 45 (by norm_num) (by norm_num),
   sail_efficiency_profile.2.2.2.2.1 135 (by norm_num)⟩

theorem modifyAt_forall {α : Type} {P : α → Prop} {f : α → α}
    (hf : ∀ a, P a → P (f a)) :
    ∀ (i : ℕ) (l : List α), (∀ a ∈ l, P a) → ∀ a ∈ modifyAt f i l, P a := by
  intro i
  induction i with
  | zero =>
    intro l hl a ha
    cases l with
    | nil => simp [modifyAt] at ha
    | cons b bs =>
      simp only [modifyAt] at ha
      rcases List.mem_cons.mp ha with ha | ha
      · rw [ha]; exact hf b (hl b (by simp))
      · exact hl a (by simp [ha])
  | succ n ih =>
    intro l hl a ha
    cases l with
    | nil => simp [modifyAt] at ha
    | cons b bs =>
      simp only [modifyAt] at ha
      rcases List.mem_cons.mp ha with ha | ha
      · rw [ha]; exact hl b (by simp)
      · exact ih bs (fun x hx => hl x (by simp [hx])) a ha

theorem setOpenness_ok (p : ℝ) (m : SailState) (h : sailOK m) :
    sailOK (SailModule.setOpenness p m) := by
  obtain ⟨h1, h2, h3, h4⟩ := h
  refine ⟨h1, h2, le_max_left _ _, max_le (by norm_num) (min_le_left _ _)⟩

theorem openBy_ok (inc : ℝ) (m : SailState) (h : sailOK m) :
    sailOK (SailModule.openBy inc m) := setOpenness_ok _ _ h

theorem closeBy_ok (inc : ℝ) (m : SailState) (h : sailOK m) :
    sailOK (SailModule.closeBy inc m) := setOpenness_ok _ _ h

theorem rotate_ok (deg : ℝ) (m : SailState) (h : sailOK m) :
    sailOK (SailModule.rotate deg m) := by
  obtain ⟨h1, h2, h3, h4⟩ := h
  exact ⟨le_max_left _ _, max_le (by norm_num) (min_le_left _ _), h3, h4⟩

theorem centerAngle_ok (inc : ℝ) (hinc : 0 ≤ inc) (m : SailState) (h : sailOK m) :
    sailOK (SailModule.centerAngle inc m) := by
  obtain ⟨h1, h2, h3, h4⟩ := h
  unfold SailModule.centerAngle
  split_ifs with ha hb
  · exact ⟨le_trans (by norm_num) (le_max_left _ _),
      max_le (by norm_num) (by linarith), h3, h4⟩
  · exact ⟨le_min (by norm_num) (by linarith),
      le_trans (min_le_left _ _) (by norm_num), h3, h4⟩
  · exact ⟨h1, h2, h3, h4⟩

theorem rotateSailAngle_mem (dir : SailDir) (a : ℝ)
    (h1 : -75 ≤ a) (h2 : a ≤ 75) :
    -75 ≤ rotateSailAngle dir a ∧ rotateSailAngle dir a ≤ 75 := by
  unfold rotateSailAngle
  cases dir with
  | left => exact ⟨le_max_left _ _, max_le (by norm_num) (by linarith)⟩
  | right => exact ⟨le_min (by norm_num) (by linarith), min_le_left _ _⟩
  | center =>
    split_ifs with ha hb
    · exact ⟨le_trans (by norm_num) (le_max_left _ _), max_le (by norm_num) (by linarith)⟩
    · exact ⟨le_min (by norm_num) (by linarith), le_trans (min_le_left _ _) (by norm_num)⟩
    · exact ⟨h1, h2⟩

theorem rotateSailTypedOne_ok (dir : SailDir) (m : SailState) (h : sailOK m) :
    sailOK (rotateSailTypedOne dir m) := by
  cases dir with
  | left => exact rotate_ok _ _ h
  | right => exact rotate_ok _ _ h
  | center => exact centerAngle_ok _ (by norm_num) _ h

theorem applyRudderAngle_mem (dir : SailDir) (vx vy r : ℝ)
    (h1 : -30 ≤ r) (h2 : r ≤ 30) :
    -30 ≤ applyRudderAngle dir vx vy r ∧ applyRudderAngle dir vx vy r ≤ 30 := by
  have hrate : 0 ≤ 0.5 * (0.5 + min 0.7 (Real.sqrt (vx ^ 2 + vy ^ 2) / 3)) := by
    have hs : 0 ≤ Real.sqrt (vx ^ 2 + vy ^ 2) := Real.sqrt_nonneg _
    have : (0 : ℝ) ≤ min 0.7 (Real.sqrt (vx ^ 2 + vy ^ 2) / 3) :=
      le_min (by norm_num) (by linarith)
    linarith
  unfold applyRudderAngle
  cases dir with
  | left => exact ⟨le_max_left _ _, max_le (by norm_num) (by linarith)⟩
  | right => exact ⟨le_min (by norm_num) (by linarith), min_le_left _ _⟩
  | center =>
    split_ifs with ha hb
    · exact ⟨le_trans (by norm_num) (le_max_left _ _), max_le (by norm_num) (by linarith)⟩
    · exact ⟨le_min (by norm_num) (by linarith), le_trans (min_le_left _ _) (by norm_num)⟩
    · exact ⟨h1, h2⟩

theorem shipStep_inv (s : ShipCtl) (op : ShipOp) (h : shipInv s) :
    shipInv (shipStep s op) := by
  obtain ⟨hr1, hr2, hs⟩ := h
  have hsOK : ∀ m ∈ s.sails, sailOK m := hs
  cases op with
  | applyRudder dir vx vy =>
    obtain ⟨g1, g2⟩ := applyRudderAngle_mem dir vx vy s.rudderAngle hr1 hr2
    exact ⟨g1, g2, hs⟩
  | rotateSails dir =>
    refine ⟨hr1, hr2, ?_⟩
    intro m hm
    obtain ⟨m0, hm0, rfl⟩ := List.mem_map.mp hm
    obtain ⟨g1, g2, g3, g4⟩ := hsOK m0 hm0
    obtain ⟨k1, k2⟩ := rotateSailAngle_mem dir m0.angle g1 g2
    exact ⟨k1, k2, g3, g4⟩
  | rotateSailsTypedOp dir =>
    refine ⟨hr1, hr2, ?_⟩
    intro m hm
    obtain ⟨m0, hm0, rfl⟩ := List.mem_map.mp hm
    exact rotateSailTypedOne_ok dir m0 (hsOK m0 hm0)
  | adjustSails p =>
    refine ⟨hr1, hr2, ?_⟩
    intro m hm
    obtain ⟨m0, hm0, rfl⟩ := List.mem_map.mp hm
    obtain ⟨g1, g2, g3, g4⟩ := hsOK m0 hm0
    exact ⟨g1, g2, le_max_left _ _, max_le (by norm_num) (min_le_left _ _)⟩
  | openSails =>
    refine ⟨hr1, hr2, ?_⟩
    intro m hm
    obtain ⟨m0, hm0, rfl⟩ := List.mem_map.mp hm
    obtain ⟨g1, g2, g3, g4⟩ := hsOK m0 hm0
    exact ⟨g1, g2, le_min (by norm_num) (by linarith), min_le_left _ _⟩
  | closeSails =>
    refine ⟨hr1, hr2, ?_⟩
    intro m hm
    obtain ⟨m0, hm0, rfl⟩ := List.mem_map.mp hm
    obtain ⟨g1, g2, g3, g4⟩ := hsOK m0 hm0
    exact ⟨g1, g2, le_max_left _ _, max_le (by norm_num) (by linarith)⟩
  | setOpenness i p =>
    exact ⟨hr1, hr2, modifyAt_forall (setOpenness_ok p) i s.sails hsOK⟩
  | openSail i inc =>
    exact ⟨hr1, hr2, modifyAt_forall (openBy_ok inc) i s.sails hsOK⟩
  | closeSail i inc =>
    exact ⟨hr1, hr2, modifyAt_forall (closeBy_ok inc) i s.sails hsOK⟩
  | rotateSail i deg =>
    exact ⟨hr1, hr2, modifyAt_forall (rotate_ok deg) i s.sails hsOK⟩
  | centerSail i =>
    exact ⟨hr1, hr2, modifyAt_forall (centerAngle_ok 1.25 (by norm_num)) i s.sails hsOK⟩

/-- C6: every public mutating operation preserves the write-time clamp
invariant, and after any sequence of operations with arbitrary inputs,
starting from the freshly constructed ship, the rudder angle is in
[-30, 30], every sail trim angle is in [-75, 75] and every sail
openness is in [0, 100]. -/
theorem ship_controls_clamped :
    (∀ (s : ShipCtl) (op : ShipOp), shipInv s → shipInv (shipStep s op)) ∧
    ∀ (n : ℕ) (ops : List ShipOp), shipInv (ops.foldl shipStep (initShip n)) := by
  refine ⟨shipStep_inv, ?_⟩
  intro n ops
  have hrun : ∀ (l : List ShipOp) (s : ShipCtl), shipInv s →
      shipInv (l.foldl shipStep s) := by
    intro l
    induction l with
    | nil => intro s h; exact h
    | cons op t ih =>
      intro s h
      exact ih (shipStep s op) (shipStep_inv s op h)
  apply hrun
  refine ⟨by simp only [initShip]; norm_num, by simp only [initShip]; norm_num, ?_⟩
  intro m hm
  simp only [initShip] at hm
  rw [List.eq_of_mem_replicate hm]
  refine ⟨by norm_num, by norm_num, le_rfl, by norm_num⟩

/-- Witness for C6: the preservation half applied at a concrete state
and operation, and the sequence half applied to a concrete program. -/
theorem ship_controls_clamped_witness :
    shipInv (shipStep { rudderAngle := 0, sails := [{ angle := 0, openness := 0 }] }
      (ShipOp.adjustSails 250)) ∧
    shipInv ([ShipOp.openSails, ShipOp.rotateSail 0 500,
      ShipOp.applyRudder SailDir.left 4 3].foldl shipStep (initShip 3)) :=
  ⟨ship_controls_clamped.1 _ _
    ⟨by norm_num, by norm_num, by
      intro m hm
      simp only [List.mem_singleton] at hm
      rw [hm]
      exact ⟨by norm_num, by norm_num, le_rfl, by norm_num⟩⟩,
   ship_controls_clamped.2 3 _⟩

theorem effOfDiff_ge (d : ℝ) : 0.35 ≤ effOfDiff d :=
  le_min (by norm_num) (le_max_left _ _)

theorem sailContribution_nonneg (windDirection shipAngle : ℝ) (m : SailState)
    (h : 0 ≤ m.openness) : 0 ≤ sailContribution windDirection shipAngle m := by
  unfold sailContribution
  have heff := effOfDiff_ge (windSailAngleDiffDeg windDirection shipAngle m.angle)
  have hbonus : (0 : ℝ) ≤ (if 0 < effOfDiff (windSailAngleDiffDeg windDirection
      shipAngle m.angle) then min 0.2 (|m.angle| / 75 * 0.2) else 0) := by
    split_ifs
    · exact le_min (by norm_num) (by positivity)
    · exact le_rfl
  have : (0 : ℝ) ≤ m.openness / 100 := by positivity
  exact mul_nonneg (by linarith) this

theorem shipSailTotals_fst_nonneg (windDirection shipAngle : ℝ) :
    ∀ (sails : List SailState) (acc : ℝ × ℕ),
      (∀ m ∈ sails, 0 ≤ m.openness) → 0 ≤ acc.1 →
      0 ≤ (sails.foldl (fun acc m =>
        if 0 < m.openness then
          (acc.1 + sailContribution windDirection shipAngle m, acc.2 + 1)
        else acc) acc).1 := by
  intro sails
  induction sails with
  | nil => intro acc h hacc; exact hacc
  | cons m t ih =>
    intro acc h hacc
    simp only [List.foldl_cons]
    split_ifs with hm
    · exact ih _ (fun x hx => h x (by simp [hx])) (by
        have := sailContribution_nonneg windDirection shipAngle m
          (h m (by simp))
        simpa using by linarith)
    · exact ih _ (fun x hx => h x (by simp [hx])) hacc

theorem shipSailTotals_snd_mono (windDirection shipAngle : ℝ) :
    ∀ (sails : List SailState) (acc : ℝ × ℕ),
      acc.2 ≤ (sails.foldl (fun acc m =>
        if 0 < m.openness then
          (acc.1 + sailContribution windDirection shipAngle m, acc.2 + 1)
        else acc) acc).2 := by
  intro sails
  induction sails with
  | nil => intro acc; exact le_rfl
  | cons m t ih =>
    intro acc
    simp only [List.foldl_cons]
    split_ifs with hm
    · exact le_trans (by simp) (ih _)
    · exact ih acc

theorem shipSailTotals_snd_pos (windDirection shipAngle : ℝ) :
    ∀ (sails : List SailState) (acc : ℝ × ℕ), sailsAreOpen sails →
      0 < (sails.foldl (fun acc m =>
        if 0 < m.openness then
          (acc.1 + sailContribution windDirection shipAngle m, acc.2 + 1)
        else acc) acc).2 := by
  intro sails
  induction sails with
  | nil =>
    intro acc h
    exact absurd h (by simp [sailsAreOpen])
  | cons m t ih =>
    intro acc h
    simp only [List.foldl_cons]
    rcases h with ⟨x, hx, hxo⟩
    rcases List.mem_cons.mp hx with hx | hx
    · rw [if_pos (by rw [← hx]; exact hxo)]
      calc 0 < acc.2 + 1 := Nat.succ_pos _
        _ ≤ _ := shipSailTotals_snd_mono windDirection shipAngle t
          (acc.1 + sailContribution windDirection shipAngle m, acc.2 + 1)
    · by_cases hm : 0 < m.openness
      · rw [if_pos hm]
        calc 0 < acc.2 + 1 := Nat.succ_pos _
          _ ≤ _ := shipSailTotals_snd_mono windDirection shipAngle t
            (acc.1 + sailContribution windDirection shipAngle m, acc.2 + 1)
      · rw [if_neg hm]
        exact ih acc ⟨x, hx, hxo⟩

theorem calculateSailEfficiency_nonneg (windDirection shipAngle : ℝ)
    (sails : List SailState) (h : ∀ m ∈ sails, 0 ≤ m.openness) :
    0 ≤ calculateSailEfficiency windDirection shipAngle sails := by
  simp only [calculateSailEfficiency]
  split_ifs with hc
  · refine le_min (by norm_num) (div_nonneg ?_ (Nat.cast_nonneg _))
    exact shipSailTotals_fst_nonneg windDirection shipAngle sails (0, 0) h le_rfl
  · exact le_rfl

theorem calculateSailEfficiencyTyped_nonneg (windDirection shipAngle : ℝ)
    (sails : List SailState) :
    0 ≤ calculateSailEfficiencyTyped windDirection shipAngle sails := by
  simp only [calculateSailEfficiencyTyped]
  split_ifs with hc
  · exact le_trans (by norm_num) (le_max_left _ _)
  · exact le_rfl

theorem alignmentFactor_nonneg (windDirection shipAngle : ℝ) :
    0 ≤ alignmentFactor windDirection shipAngle :=
  le_trans (by norm_num) (le_max_left _ _)

theorem alignmentFactorTyped_nonneg (windDirection shipAngle : ℝ) :
    0 ≤ alignmentFactorTyped windDirection shipAngle :=
  le_trans (by norm_num) (le_max_left _ _)

theorem avgSailOpenness_nonneg (sails : List SailState)
    (h : ∀ m ∈ sails, 0 ≤ m.openness) : 0 ≤ avgSailOpenness sails := by
  unfold avgSailOpenness
  split_ifs with hc
  · refine div_nonneg (List.sum_nonneg ?_) (Nat.cast_nonneg _)
    intro x hx
    obtain ⟨m, hm, rfl⟩ := List.mem_map.mp hx
    exact h m hm
  · exact le_rfl

/-- C1: in both `applyWindForce` versions, when at least one sail is
open the force applied to the physics body is a nonnegative scalar
multiple of the heading unit vector `(cos shipAngle, sin shipAngle)`;
the wind direction, wind power and sail trims enter only through the
scalar. -/
theorem wind_force_along_heading (windDirection windPower shipAngle : ℝ)
    (sails : List SailState) (hp : 0 ≤ windPower)
    (ho : ∀ m ∈ sails, 0 ≤ m.openness) (hopen : sailsAreOpen sails) :
    ∃ c1 c2 : ℝ, 0 ≤ c1 ∧ 0 ≤ c2 ∧
      applyWindForceVector windDirection windPower shipAngle sails =
        (c1 * Real.cos shipAngle, c1 * Real.sin shipAngle) ∧
      applyWindForceVectorTyped windDirection windPower shipAngle sails =
        (c2 * Real.cos shipAngle, c2 * Real.sin shipAngle) := by
  classical
  refine ⟨if 0 < calculateSailEfficiency windDirection shipAngle sails then
      windPower * calculateSailEfficiency windDirection shipAngle sails * 0.024 *
        alignmentFactor windDirection shipAngle else 0,
    if 0 < calculateSailEfficiencyTyped windDirection shipAngle sails then
      (0.8 + windPower) * max 0.40 (calculateSailEfficiencyTyped windDirection
        shipAngle sails) * 0.08 * (avgSailOpenness sails / 100) *
        alignmentFactorTyped windDirection shipAngle else 0,
    ?_, ?_, ?_, ?_⟩
  · split_ifs with he
    · have := alignmentFactor_nonneg windDirection shipAngle
      have h24 : (0 : ℝ) ≤ 0.024 := by norm_num
      exact mul_nonneg (mul_nonneg (mul_nonneg hp he.le) h24) this
    · exact le_rfl
  · split_ifs with he
    · have ha := alignmentFactorTyped_nonneg windDirection shipAngle
      have havg := avgSailOpenness_nonneg sails ho
      have hbase : (0 : ℝ) ≤ max 0.40 (calculateSailEfficiencyTyped
          windDirection shipAngle sails) := le_trans (by norm_num) (le_max_left _ _)
      have h1 : (0 : ℝ) ≤ 0.8 + windPower := by linarith
      positivity
    · exact le_rfl
  · unfold applyWindForceVector
    rw [if_pos hopen]
    simp only [Prod.mk.injEq]
    constructor
    · split_ifs with he
      · ring
      · ring
    · split_ifs with he
      · ring
      · ring
  · unfold applyWindForceVectorTyped
    rw [if_pos hopen]
    simp only [Prod.mk.injEq]
    constructor
    · split_ifs with he
      · ring
      · ring
    · split_ifs with he
      · ring
      · ring

/-- Witness for C1: heading 0, wind blowing toward +x at power 1, one
sail fully open at trim 0. -/
theorem wind_force_along_heading_witness :
    ∃ c1 c2 : ℝ, 0 ≤ c1 ∧ 0 ≤ c2 ∧
      applyWindForceVector 0 1 0 [{ angle := 0, openness := 100 }] =
        (c1 * Real.cos 0, c1 * Real.sin 0) ∧
      applyWindForceVectorTyped 0 1 0 [{ angle := 0, openness := 100 }] =
        (c2 * Real.cos 0, c2 * Real.sin 0) :=
  wind_force_along_heading 0 1 0 [{ angle := 0, openness := 100 }]
    (by norm_num)
    (by intro m hm; simp only [List.mem_singleton] at hm; rw [hm]; norm_num)
    ⟨{ angle := 0, openness := 100 }, by simp, by norm_num⟩

/-- C10: the typed `rotateSails` restores the exact saved linear
velocity, leaves position, heading, rudder and momentum untouched, does
not change any sail openness, and only sets the sail trim angles and the
two sail-rotation animation fields. -/
theorem rotateSailsTyped_preserves_velocity (dir : SailDir) (s : ShipTyped) :
    (rotateSailsTyped dir s).velocityX = s.velocityX ∧
    (rotateSailsTyped dir s).velocityY = s.velocityY ∧
    (rotateSailsTyped dir s).positionX = s.positionX ∧
    (rotateSailsTyped dir s).positionY = s.positionY ∧
    (rotateSailsTyped dir s).bodyAngle = s.bodyAngle ∧
    (rotateSailsTyped dir s).rudderAngle = s.rudderAngle ∧
    (rotateSailsTyped dir s).momentum = s.momentum ∧
    (rotateSailsTyped dir s).sails.map SailState.openness =
      s.sails.map SailState.openness ∧
    (rotateSailsTyped dir s).isRotatingSails = true ∧
    (rotateSailsTyped dir s).sailRotationTimer = 10 := by
  refine ⟨rfl, rfl, rfl, rfl, rfl, rfl, rfl, ?_, rfl, rfl⟩
  show (s.sails.map (rotateSailTypedOne dir)).map SailState.openness =
    s.sails.map SailState.openness
  rw [List.map_map]
  apply List.map_congr_left
  intro m hm
  show (rotateSailTypedOne dir m).openness = m.openness
  cases dir with
  | left => rfl
  | right => rfl
  | center =>
    unfold rotateSailTypedOne SailModule.centerAngle
    split_ifs <;> rfl

/-! ## Wind cycle (`WorldManager.updateWind`) -/
theorem jsRem_bounds (a b : ℝ) (ha : 0 ≤ a) (hb : 0 < b) :
    0 ≤ jsRem a b ∧ jsRem a b < b := by
  rw [jsRem_nonneg_eq a b ha hb]
  have h1 := Int.fract_nonneg (a / b)
  have h2 := Int.fract_lt_one (a / b)
  rw [Int.fract] at h1 h2
  constructor
  · have := mul_le_mul_of_nonneg_left h1 hb.le
    rw [mul_zero, mul_sub] at this
    have hdiv : b * (a / b) = a := mul_div_cancel₀ a (ne_of_gt hb)
    rw [hdiv] at this
    linarith
  · have := mul_lt_mul_of_pos_left h2 hb
    rw [mul_one, mul_sub] at this
    have hdiv : b * (a / b) = a := mul_div_cancel₀ a (ne_of_gt hb)
    rw [hdiv] at this
    linarith

/-- C9 (amended): the stored direction is exactly
`(elapsed mod period) / period * 2π` with the 5-minute period; for every
jitter draw the stored power lies in [0.5, 2.0]; within ±30 degrees of
due east or west the pre-jitter scaling floor is raised to 0.75, and in
those bands the final power is at least 0.75 whenever the north-south
alignment and the jitter are nonnegative — but not in general (the
alignment is negative past due west, see the counterexample). -/
theorem updateWind_direction_power (elapsed rand : ℝ) (he : 0 ≤ elapsed) :
    (updateWind elapsed rand).1 = jsRem elapsed 300000 / 300000 * (π * 2) ∧
    0.5 ≤ (updateWind elapsed rand).2 ∧ (updateWind elapsed rand).2 ≤ 2 ∧
    ((|(updateWind elapsed rand).1 - π / 2| < π / 6 ∨
      |(updateWind elapsed rand).1 - 3 * π / 2| < π / 6) →
      windMinPower (updateWind elapsed rand).1 = 0.75) ∧
    ((|(updateWind elapsed rand).1 - π / 2| < π / 6 ∨
      |(updateWind elapsed rand).1 - 3 * π / 2| < π / 6) →
      0 ≤ northSouthAlignment (updateWind elapsed rand).1 → 1 / 2 ≤ rand →
      0.75 ≤ (updateWind elapsed rand).2) := by
  have hpi : (0 : ℝ) < π := pi_pos
  obtain ⟨hq0, hq1⟩ := jsRem_bounds elapsed 300000 he (by norm_num)
  have hdir : windDirAt elapsed = jsRem elapsed 300000 / 300000 * (π * 2) := by
    unfold windDirAt
    have h0 : 0 ≤ jsRem elapsed 300000 / 300000 * π * 2 := by positivity
    have h1 : jsRem elapsed 300000 / 300000 * π * 2 < 2 * π := by
      have : jsRem elapsed 300000 / 300000 < 1 := by
        rw [div_lt_one (by norm_num)]; exact hq1
      nlinarith
    rw [norm2pi_eq_self h0 h1]
    ring
  refine ⟨hdir, ?_, ?_, ?_, ?_⟩
  · show 0.5 ≤ windPowerAt elapsed rand
    simp only [windPowerAt]
    split_ifs <;> linarith
  · show windPowerAt elapsed rand ≤ 2
    simp only [windPowerAt]
    split_ifs with h1 h2 h3
    · norm_num
    · linarith
    · norm_num
    · linarith
  · intro hband
    exact if_pos hband
  · intro hband halign hrand
    have hband2 : |windDirAt elapsed - π / 2| < π / 6 ∨
        |windDirAt elapsed - 3 * π / 2| < π / 6 := hband
    have halign2 : 0 ≤ northSouthAlignment (windDirAt elapsed) := halign
    show 0.75 ≤ windPowerAt elapsed rand
    simp only [windPowerAt]
    rw [show windMinPower (windDirAt elapsed) = 0.75 from if_pos hband2]
    have hj : 0 ≤ (rand - 0.5) * 0.1 := by nlinarith
    have hterm : 0 ≤ northSouthAlignment (windDirAt elapsed) * (2.0 - 0.75) := by
      nlinarith
    split_ifs with h1 h2 h3
    · norm_num
    · exfalso; nlinarith
    · norm_num
    · nlinarith

/-- Witness for the amended C9, instantiated at elapsed time 0 and
jitter draw 0. -/
theorem updateWind_direction_power_witness :
    (updateWind 0 0).1 = jsRem 0 300000 / 300000 * (π * 2) ∧
    0.5 ≤ (updateWind 0 0).2 ∧ (updateWind 0 0).2 ≤ 2 ∧
    ((|(updateWind 0 0).1 - π / 2| < π / 6 ∨
      |(updateWind 0 0).1 - 3 * π / 2| < π / 6) →
      windMinPower (updateWind 0 0).1 = 0.75) ∧
    ((|(updateWind 0 0).1 - π / 2| < π / 6 ∨
      |(updateWind 0 0).1 - 3 * π / 2| < π / 6) →
      0 ≤ northSouthAlignment (updateWind 0 0).1 → 1 / 2 ≤ (0 : ℝ) →
      0.75 ≤ (updateWind 0 0).2) :=
  updateWind_direction_power 0 0 le_rfl

/-- C9 counterexample: at elapsed time 243750 ms the wind direction is
13π/8, within 30 degrees of due west (3π/2), yet with jitter draw 0.5
the stored power is 0.5 — below the claimed raised floor 0.75 (the
north-south alignment is negative past due west, and the final clamp
only enforces the 0.5 floor). -/
theorem updateWind_west_band_power_below_floor :
    |(updateWind 243750 0.5).1 - 3 * π / 2| < π / 6 ∧
    (updateWind 243750 0.5).2 = 0.5 ∧
    (updateWind 243750 0.5).2 < 0.75 := by
  have hpi : (0 : ℝ) < π := pi_pos
  have hpne : π ≠ 0 := ne_of_gt hpi
  have hjs : jsRem 243750 300000 = 243750 := by
    rw [jsRem_nonneg_eq _ _ (by norm_num) (by norm_num)]
    have hq : (243750 : ℝ) / 300000 = 13 / 16 := by norm_num
    rw [hq]
    have hf : ⌊(13 : ℝ) / 16⌋ = 0 := by
      rw [Int.floor_eq_zero_iff, Set.mem_Ico]
      norm_num
    rw [hf]
    norm_num
  have hdir : windDirAt 243750 = 13 * π / 8 := by
    unfold windDirAt
    rw [hjs]
    have hq : (243750 : ℝ) / 300000 = 13 / 16 := by norm_num
    rw [hq]
    have harg : (13 : ℝ) / 16 * π * 2 = 13 * π / 8 := by ring
    rw [harg]
    exact norm2pi_eq_self (by positivity) (by nlinarith)
  have hband : |13 * π / 8 - 3 * π / 2| < π / 6 := by
    have h8 : 13 * π / 8 - 3 * π / 2 = π / 8 := by ring
    rw [h8, abs_of_pos (by positivity)]
    linarith
  have hrem1 : jsRem (13 * π / 8) π = 5 * π / 8 := by
    unfold jsRem truncInt
    have hdiv : 13 * π / 8 / π = 13 / 8 := by field_simp; ring
    rw [hdiv, if_pos (by norm_num)]
    have hf : ⌊(13 : ℝ) / 8⌋ = 1 := by
      rw [Int.floor_eq_iff]
      push_cast
      constructor <;> norm_num
    rw [hf]
    push_cast
    ring
  have hrem2 : jsRem (13 * π / 8 - π) π = 5 * π / 8 := by
    have harg : 13 * π / 8 - π = 5 * π / 8 := by ring
    rw [harg]
    unfold jsRem truncInt
    have hdiv : 5 * π / 8 / π = 5 / 8 := by field_simp; ring
    rw [hdiv, if_pos (by norm_num)]
    have hf : ⌊(5 : ℝ) / 8⌋ = 0 := by
      rw [Int.floor_eq_zero_iff, Set.mem_Ico]
      norm_num
    rw [hf]
    push_cast
    ring
  have haxis : northSouthAxisDist (13 * π / 8) = 5 * π / 8 := by
    unfold northSouthAxisDist
    rw [hrem1, hrem2, abs_of_pos (by positivity), min_self]
  have halign : northSouthAlignment (13 * π / 8) = -(1 / 4) := by
    unfold northSouthAlignment
    rw [haxis]
    have hq : 5 * π / 8 / (π / 2) = 5 / 4 := by
      field_simp
      ring
    rw [hq]
    norm_num
  have hminp : windMinPower (13 * π / 8) = 0.75 := if_pos (Or.inr hband)
  have hpow : windPowerAt 243750 0.5 = 0.5 := by
    simp only [windPowerAt]
    rw [hdir, hminp, halign]
    split_ifs with h1 h2 h3
    · exact absurd h2 (by norm_num)
    · rfl
    · exact absurd h1 (by norm_num)
    · exact absurd h1 (by norm_num)
  refine ⟨?_, ?_, ?_⟩
  · show |windDirAt 243750 - 3 * π / 2| < π / 6
    rw [hdir]
    exact hband
  · exact hpow
  · show windPowerAt 243750 0.5 < 0.75
    rw [hpow]
    norm_num

/-- The ship center maps to local origin (0, 0) for any pose. -/
theorem toLocal_center (s : ShipGeom) : toLocal s s.posX s.posY = (0, 0) := by
  simp [toLocal]

/-- C3 counterexample: with a dynamically mounted module whose visual
position is the ship center, the center itself is NOT walkable — it is
inside that module's obstacle box, so it is not "never an obstacle
location". -/
theorem center_blocked_by_mounted_module :
    ¬ isPositionOnDeck shipWithCenterModule false
        shipWithCenterModule.posX shipWithCenterModule.posY := by
  have hp1 : (toLocal shipWithCenterModule shipWithCenterModule.posX
      shipWithCenterModule.posY).1 = 0 := by
    rw [toLocal_center]
  have hp2 : (toLocal shipWithCenterModule shipWithCenterModule.posX
      shipWithCenterModule.posY).2 = 0 := by
    rw [toLocal_center]
  intro h
  simp only [isPositionOnDeck] at h
  obtain ⟨-, -, -, -, hmods⟩ := h
  refine hmods ⟨ModuleType.other, 0, 0, 0, 0⟩ (by simp [shipWithCenterModule]) ?_
  rw [hp1, hp2]
  refine ⟨?_, by norm_num, by norm_num, by norm_num, by norm_num⟩
  intro hstat
  rcases hstat with ⟨ht, -⟩ | ⟨ht, -⟩ <;> simp at ht

/-- C3 (amended): whenever the ship center is walkable — in particular
whenever no dynamically mounted module box covers it — every point
returned by `findSafeDismountPosition` is walkable; and the center is
never inside a static obstacle (masts, wheel, cannons) or outside the
hull, so it is walkable exactly when no mounted module covers it. -/
theorem dismount_position_walkable :
    (∀ (s : ShipGeom) (hasCtx : Bool) (x y : ℝ),
      isPositionOnDeck s hasCtx s.posX s.posY →
      isPositionOnDeck s hasCtx (findSafeDismountPosition s hasCtx x y).1
        (findSafeDismountPosition s hasCtx x y).2) ∧
    (∀ (s : ShipGeom) (hasCtx : Bool),
      (∀ m ∈ s.modules, ¬ moduleBlocks m 0 0) →
      isPositionOnDeck s hasCtx s.posX s.posY) := by
  constructor
  · intro s hasCtx x y hc
    unfold findSafeDismountPosition
    split_ifs with hstart
    · exact hstart
    · have hfw : ∀ (l : List (ℝ × ℝ)) (q : ℝ × ℝ),
          firstWalkable s hasCtx l = some q →
          isPositionOnDeck s hasCtx q.1 q.2 := by
        intro l
        induction l with
        | nil => intro q hq; simp [firstWalkable] at hq
        | cons a t ih =>
          intro q hq
          rw [firstWalkable] at hq
          split_ifs at hq with hwalk
          · obtain rfl : a = q := Option.some.inj hq
            exact hwalk
          · exact ih q hq
      rcases hfq : firstWalkable s hasCtx (dismountCandidates s x y) with - | q
      · simp only [hfq]
        exact hc
      · simp only [hfq]
        exact hfw _ q hfq
  · intro s hasCtx hmods
    simp only [isPositionOnDeck, toLocal_center]
    refine ⟨?_, ?_, ?_, ?_, ?_⟩
    · cases hasCtx
      · rw [if_neg (by simp)]
        refine ⟨by norm_num, by norm_num, by norm_num, by norm_num, ?_, ?_⟩
        · rintro ⟨hx, -⟩
          norm_num at hx
        · rintro ⟨hx, -⟩
          norm_num at hx
      · rw [if_pos rfl]
        refine ⟨by norm_num, by norm_num, by norm_num⟩
    · rintro ⟨m, hm, hlt⟩
      simp only [MASTS, List.mem_cons, List.not_mem_nil, or_false] at hm
      rcases hm with rfl | rfl | rfl <;> norm_num at hlt
    · rintro ⟨-, hx, -, -⟩
      norm_num at hx
    · rintro ⟨c, hc, hx1, hx2, hy1, hy2⟩
      simp only [CANNONS, List.mem_cons, List.not_mem_nil, or_false] at hc
      rcases hc with rfl | rfl | rfl | rfl | rfl | rfl <;> norm_num at hx1 hx2 hy1 hy2
    · exact hmods

/-- Witness for the amended C3: an empty-deck ship, searched from a far
off-deck start point; the returned point (the center fallback) is
walkable. -/
theorem dismount_position_walkable_witness :
    isPositionOnDeck emptyDeckShip false
      (findSafeDismountPosition emptyDeckShip false 5000 5000).1
      (findSafeDismountPosition emptyDeckShip false 5000 5000).2 ∧
    isPositionOnDeck emptyDeckShip false emptyDeckShip.posX emptyDeckShip.posY :=
  ⟨dismount_position_walkable.1 emptyDeckShip false 5000 5000
    (dismount_position_walkable.2 emptyDeckShip false (by simp [emptyDeckShip])),
   dismount_position_walkable.2 emptyDeckShip false (by simp [emptyDeckShip])⟩

/-- C4 counterexample: the analytic fallback accepts (310, 0), which the
exact hull region rejects (the bow Bezier only reaches x = 302.5); the
typed bounding-box fallback accepts (410, 0), also outside the exact
hull.  The containment tests do not agree on one canonical hull shape. -/
theorem hull_tests_disagree :
    inHullApprox 310 0 ∧ ¬ inHullExact 310 0 ∧
    inHullBoxTyped 410 0 ∧ ¬ inHullExact 410 0 := by
  refine ⟨⟨by norm_num, by norm_num, by norm_num, by norm_num, ?_, ?_⟩,
    ?_, ?_, ?_⟩
  · rintro ⟨-, habs⟩
    rw [abs_zero] at habs
    norm_num at habs
  · rintro ⟨hx, -⟩
    norm_num at hx
  · rintro ⟨-, -, hx⟩
    norm_num at hx
  · simp only [inHullBoxTyped]
    push_neg
    norm_num
  · rintro ⟨-, -, hx⟩
    norm_num at hx

/-- C4 (amended): the exact hull test, the analytic approximation and
the typed bounding-box fallback all agree on the mid-band of the deck
(local x between -220 and 150), where each of them reduces to
|y| ≤ 90; outside that band they disagree (see the counterexample). -/
theorem hull_tests_agree_midband (rx ry : ℝ) (h1 : -220 ≤ rx) (h2 : rx ≤ 150) :
    (inHullApprox rx ry ↔ inHullExact rx ry) ∧
    (inHullApprox rx ry ↔ inHullBoxTyped rx ry) := by
  have happrox : inHullApprox rx ry ↔ |ry| ≤ 90 := by
    constructor
    · rintro ⟨-, -, hy1, hy2, -, -⟩
      exact abs_le.mpr ⟨hy1, hy2⟩
    · intro hy
      rw [abs_le] at hy
      refine ⟨by linarith, by linarith, hy.1, hy.2, ?_, ?_⟩
      · rintro ⟨hx, -⟩
        linarith
      · rintro ⟨hx, -⟩
        linarith
  have hexact : inHullExact rx ry ↔ |ry| ≤ 90 := by
    constructor
    · rintro ⟨hy, -, -⟩
      exact hy
    · intro hy
      have hsq : 0 ≤ 1 - (ry / 90) ^ 2 := by
        have h90 : ry ^ 2 ≤ 8100 := by
          rw [abs_le] at hy
          nlinarith
        have : (ry / 90) ^ 2 = ry ^ 2 / 8100 := by
          rw [div_pow]
          norm_num
        rw [this]
        linarith [div_le_one_of_le₀ h90 (by norm_num : (0:ℝ) ≤ 8100)]
      exact ⟨hy, by nlinarith, by nlinarith⟩
  have hbox : inHullBoxTyped rx ry ↔ |ry| ≤ 90 := by
    unfold inHullBoxTyped
    push_neg
    constructor
    · rintro ⟨-, -, hy1, hy2⟩
      exact abs_le.mpr ⟨by linarith, by linarith⟩
    · intro hy
      rw [abs_le] at hy
      exact ⟨by linarith, by linarith, by linarith, by linarith⟩
  exact ⟨happrox.trans hexact.symm, happrox.trans hbox.symm⟩

/-- Witness for the amended C4 at the concrete mid-band point (0, 50). -/
theorem hull_tests_agree_midband_witness :
    (inHullApprox 0 50 ↔ inHullExact 0 50) ∧
    (inHullApprox 0 50 ↔ inHullBoxTyped 0 50) :=
  hull_tests_agree_midband 0 50 (by norm_num) (by norm_num)

end PirateGame
